import Mathlib

/-!
Verification of the solving core of the statics point-force solver
(`src/solver/equilibrium_solver.py`, `src/solver/resultant_solver.py`,
`src/core/config.py`, `src/core/data_models.py`).

Shallow embedding conventions:
* Python floats are modelled as real numbers (`ℝ`); string-to-number
  parsing produces rationals (`ℚ`), which is faithful because every
  Python float literal denotes a rational number.
* A force field value (`magnitude` / `angle` of the `Vector` dataclass)
  is a number, Python `None`, or a string (`FieldInput`).
* The Streamlit display calls (`st.error`, `st.warning`, `st.success`,
  `st.info`) are modelled as an explicit list of messages returned next
  to the result dictionary.  Unconditional or debug-gated `st.info`
  DEBUG traces are presentation noise and are not modelled; every
  message that carries branch information (validation errors, the
  equilibrium / consistency verdict, determinacy advisories, the
  solution-filter warnings, "no solutions") is modelled.
* The external call to SymPy's `sp.solve` (which may return a list of
  candidate solutions or raise) is modelled by an explicit oracle
  argument `GS` passed to the solver: `GS.ok raw` for a returned
  candidate list, `GS.raiseExc` for an exception escaping `sp.solve`.
* The Python result dictionary is modelled by a record plus the literal
  list of its keys, so that claims about which fields the record
  contains are statable.  The LaTeX display strings stored in the
  dictionary are presentation-only and their contents are not modelled,
  but their keys are kept in the key list.
-/

set_option maxHeartbeats 1000000

namespace Statics

/-- Numerical tolerance for treating a value as zero
(`core/config.py`, `NUMERIC_ZERO_TOLERANCE = 1e-6`). -/
def NUMERIC_ZERO_TOLERANCE : ℝ := 1e-6

/-- A raw input value of a `Vector` field: a Python number (float/int),
Python `None`, or a string (`core/data_models.py` declares the fields
`Optional[float]`; the UI can also hand strings through). -/
inductive FieldInput where
  | num (x : ℝ)
  | none
  | str (s : String)

/-- The `Vector` dataclass of `core/data_models.py`: angle in degrees,
magnitude, and the pixel length used only for drawing. -/
structure Vector where
  angle : FieldInput
  magnitude : FieldInput
  drawn_length : ℝ

/-- Classification of one field after the input checks of the solver
loop: a known numeric value, or an unknown to be solved for. -/
inductive FieldSpec where
  | known (x : ℝ)
  | unknown

/-- Whether a classified field is an unknown to be solved for. -/
def FieldSpec.isUnknown : FieldSpec → Bool
  | .known _ => false
  | .unknown => true

/-- Classified pair for one force: magnitude and angle specification. -/
structure ForceSpec where
  mag : FieldSpec
  ang : FieldSpec

/-- The SymPy symbols the solvers create: `F{i+1}` (force magnitude),
`theta_F{i+1}_rad` (force angle in radians), and for the resultant
variant `R` and `alpha_rad`.  The index `i` is the 0-based force index. -/
inductive Sym where
  | F (i : Nat)
  | theta (i : Nat)
  | R
  | alpha
deriving DecidableEq

/-- The `.name` of the SymPy symbol built by the solvers
(`sp.Symbol(f"F{i+1}")`, `sp.Symbol(f"theta_F{i+1}_rad")`,
`sp.Symbol("R")`, `sp.Symbol("alpha_rad")`). -/
def symName : Sym → String
  | .F i => "F" ++ toString (i + 1)
  | .theta i => "theta_F" ++ toString (i + 1) ++ "_rad"
  | .R => "R"
  | .alpha => "alpha_rad"

/-- Keys of a solution dictionary: a SymPy symbol, or the two ad hoc
string keys `"_calculated_R_mag"` / `"_calculated_R_alpha"` the
equilibrium fast path stores in its synthetic solution. -/
inductive SolKey where
  | sym (s : Sym)
  | calcRMag
  | calcRAlpha
deriving DecidableEq

/-- Value bound to a symbol in a SymPy solution dictionary, as far as
the solution filter inspects it: `numeric x` models a value that is an
instance of `(sp.Float, float, int)` (such values are always real; in
fact they are dyadic rationals, modelled here by an arbitrary real);
`realExpr` models a value whose `is_real` is `True` but which is not a
numeric instance (an exact symbolic real such as `sqrt(2)`); `nonReal`
models a value whose `is_real` is not `True` (complex, or undetermined
because free symbols remain). -/
inductive SolVal where
  | numeric (x : ℝ)
  | realExpr
  | nonReal

/-- A SymPy solution dictionary, with insertion order kept. -/
abbrev Sol : Type := List (SolKey × SolVal)

/-- Messages emitted through Streamlit by the solvers.  Each constructor
corresponds to one `st.error` / `st.warning` / `st.success` / `st.info`
call site that carries branch information. -/
inductive Msg where
  | invalidMagnitude (i : Nat)
  | invalidAngle (i : Nat)
  | invalidR
  | invalidAlpha
  | equilibriumSuccess
  | notEquilibrium (mag ang : ℝ)
  | consistentMsg
  | inconsistentMsg
  | underdeterminedWarn (k : Nat)
  | overdeterminedWarn (k : Nat)
  | negativeMagnitudeWarn
  | complexWarn
  | noSolutionsInfo
  | solveErrorMsg

/-- Outcome of the external `sp.solve` call inside the `try` block:
either a candidate solution list is returned, or an exception is
raised. -/
inductive GS where
  | ok (raw : List Sol)
  | raiseExc

/-- Python's `str.strip()` over the character list (whitespace here is
the ASCII whitespace of `Char.isWhitespace`, which covers the
whitespace the UI can produce). -/
def stripChars (cs : List Char) : List Char :=
  ((cs.dropWhile Char.isWhitespace).reverse.dropWhile Char.isWhitespace).reverse

/-- Classify one raw field value exactly as the solver loop does
(`equilibrium_solver.py` lines 60-83, `resultant_solver.py` lines
71-94): a number is known; `None` or a string that strips to empty is
unknown; anything else is invalid (`Option.none` here). -/
def classifyField : FieldInput → Option FieldSpec
  | .num x => some (.known x)
  | .none => some .unknown
  | .str s => if stripChars s.toList = [] then some .unknown else Option.none

/-- Classify the whole force list, magnitude before angle for each
force, returning the first validation error (the Python loop returns
`{"error": True}` at the first invalid field). `i` is the index of the
first vector in the list. -/
def classifyVectors : Nat → List Vector → Except Msg (List ForceSpec)
  | _, [] => .ok []
  | i, v :: rest =>
    match classifyField v.magnitude with
    | Option.none => .error (.invalidMagnitude i)
    | some m =>
      match classifyField v.angle with
      | Option.none => .error (.invalidAngle i)
      | some a =>
        match classifyVectors (i + 1) rest with
        | .error e => .error e
        | .ok specs => .ok (⟨m, a⟩ :: specs)

/-- Unknown symbols contributed by one force, in the order the loop
appends them: the magnitude symbol first (line 66), then the angle
symbol (line 79). -/
def unknownSymsOfForce (i : Nat) (f : ForceSpec) : List Sym :=
  (if f.mag.isUnknown then [Sym.F i] else []) ++
    (if f.ang.isUnknown then [Sym.theta i] else [])

/-- The `unknown_symbols` list accumulated by the loop over forces,
starting at force index `k`. -/
def unknownSymbolsAux : Nat → List ForceSpec → List Sym
  | _, [] => []
  | k, f :: rest => unknownSymsOfForce k f ++ unknownSymbolsAux (k + 1) rest

/-- The `unknown_symbols` list for the whole force list. -/
def unknownSymbols (specs : List ForceSpec) : List Sym :=
  unknownSymbolsAux 0 specs

/-- Degrees to radians (`math.radians`). -/
noncomputable def radians (d : ℝ) : ℝ := d * Real.pi / 180

/-- Radians to degrees (`math.degrees`). -/
noncomputable def degrees (r : ℝ) : ℝ := r * 180 / Real.pi

/-- Euclidean norm of a 2D vector (`math.hypot`). -/
noncomputable def hypot (x y : ℝ) : ℝ := Real.sqrt (x ^ 2 + y ^ 2)

/-- Two-argument arctangent (`math.atan2(y, x)`), with the C convention
range `(-π, π]`, via the complex argument of `x + i y`. -/
noncomputable def atan2 (y x : ℝ) : ℝ := Complex.arg ⟨x, y⟩

/-- Python's `round(x, 3)` over the real model.  Python uses
round-half-to-even on binary floats; over the real model we use the
standard nearest-integer rounding, which agrees except at exact decimal
ties (which the claims do not touch). -/
noncomputable def round3 (x : ℝ) : ℝ := (round (x * 1000) : ℤ) / 1000

/-- Python's `round(x, 2)` over the real model (same caveat as
`round3`). -/
noncomputable def round2 (x : ℝ) : ℝ := (round (x * 100) : ℤ) / 100

/-- Python's float `%` (sign follows the divisor). -/
noncomputable def pymod (a b : ℝ) : ℝ := a - b * ⌊a / b⌋

/-- Contribution of one force to the numeric constant component sums
(`constant_fx_sum`, lines 94-97): only forces with both fields known
contribute `mag * cos(radians angle)`. -/
noncomputable def constTermFx : ForceSpec → ℝ
  | ⟨.known m, .known a⟩ => m * Real.cos (radians a)
  | _ => 0

/-- Contribution of one force to `constant_fy_sum`. -/
noncomputable def constTermFy : ForceSpec → ℝ
  | ⟨.known m, .known a⟩ => m * Real.sin (radians a)
  | _ => 0

/-- The numeric `constant_fx_sum` accumulated by the build loop. -/
noncomputable def constantFxSum (specs : List ForceSpec) : ℝ :=
  (specs.map constTermFx).sum

/-- The numeric `constant_fy_sum` accumulated by the build loop. -/
noncomputable def constantFySum (specs : List ForceSpec) : ℝ :=
  (specs.map constTermFy).sum

/-- Force indices of the unknown magnitude symbols
(`unknown_F_syms = [s for s in unknown_symbols if s in F_syms]`). -/
def magIdxs (us : List Sym) : List Nat :=
  us.filterMap fun s => match s with | .F i => some i | _ => Option.none

/-- Force indices of the unknown angle symbols
(`unknown_theta_syms_rad`). -/
def angIdxs (us : List Sym) : List Nat :=
  us.filterMap fun s => match s with | .theta i => some i | _ => Option.none

/-- The `is_simple_F_theta_case` test (`equilibrium_solver.py` lines
173-179): exactly one unknown magnitude, exactly one unknown angle, and
the two belong to the same force. -/
def isSimpleFTheta (us : List Sym) : Bool :=
  match magIdxs us, angIdxs us with
  | [i], [j] => i == j
  | _, _ => false

/-- The index of the single unknown-magnitude force in the simple case
(`F_syms.index(unknown_F_syms[0])`). -/
def simpleIdx (us : List Sym) : Nat := (magIdxs us).headI

/-- A solution is kept by the first filter stage iff every value in the
dictionary has `is_real` equal to `True`
(`real_sols = [sol for sol in solution_set if all(s.is_real ...)]`). -/
def isRealSol (sol : Sol) : Prop :=
  ∀ kv ∈ sol, kv.2 ≠ SolVal.nonReal

/-- Some force-magnitude symbol of an existing force resolves to a
negative numeric instance in the solution (`var in F_syms and
float(val) < 0`, guarded by `isinstance(val, (sp.Float, float, int))`).
`n` is the number of forces. -/
def badMagBinding (n : Nat) (sol : Sol) : Prop :=
  ∃ i x, i < n ∧ (SolKey.sym (.F i), SolVal.numeric x) ∈ sol ∧ x < 0

/-- The resultant symbol `R` resolves to a negative numeric instance
(`var == R_sym and float(val) < 0`, resultant variant only). -/
def badRBinding (sol : Sol) : Prop :=
  ∃ x, (SolKey.sym .R, SolVal.numeric x) ∈ sol ∧ x < 0

/-- Preference predicate of the equilibrium solution filter (lines
206-216): no existing force magnitude resolves to a negative number. -/
def isPreferredEq (n : Nat) (sol : Sol) : Prop := ¬ badMagBinding n sol

/-- Preference predicate of the resultant solution filter (lines
237-248): additionally `R` must not resolve to a negative number. -/
def isPreferredRes (n : Nat) (sol : Sol) : Prop :=
  ¬ (badMagBinding n sol ∨ badRBinding sol)

open Classical in
/-- Filter of a list by a proposition-valued predicate (the Python list
comprehensions over semantic conditions). -/
noncomputable def filterP {α : Type} (p : α → Prop) : List α → List α
  | [] => []
  | a :: l => if p a then a :: filterP p l else filterP p l

/-- The synthetic per-force bindings the zero-unknown fast path stores
in its drawing solution (lines 153-157): each numeric magnitude under
its `F` symbol, each numeric angle converted to radians under its
`theta` symbol. -/
noncomputable def dummyBindings (specs : List ForceSpec) : List (SolKey × SolVal) :=
  (specs.enum.map fun fi =>
    (match fi.2.mag with
     | .known m => [(SolKey.sym (.F fi.1), SolVal.numeric m)]
     | .unknown => []) ++
    (match fi.2.ang with
     | .known a => [(SolKey.sym (.theta fi.1), SolVal.numeric (radians a))]
     | .unknown => [])).flatten

/-- The result dictionary of `solve_for_equilibrium` in its non-error
form (the return at lines 242-256).  The four LaTeX term lists are
presentation strings whose contents are not modelled; their keys are
listed in `EqReturn.keys`.  The field `calculated_R_mag` models the
dictionary entry `"_calculated_R_mag"`, and `calculated_R_alpha` models
`"_calculated_R_alpha"`. -/
structure EqRecord where
  all_sols : List Sol
  unknown_symbols : List Sym
  constant_fx_sum : ℝ
  constant_fy_sum : ℝ
  calculated_R_mag : ℝ
  calculated_R_alpha : ℝ
  error : Bool

/-- The value returned by `solve_for_equilibrium`: either the bare
`{"error": True}` dictionary of the validation-failure branches, or the
full result record. -/
inductive EqReturn where
  | errorOnly
  | ok (r : EqRecord)

/-- The literal key list of the full dictionary returned by
`solve_for_equilibrium` (lines 242-256). -/
def eqFullKeys : List String :=
  ["all_sols", "F_syms", "theta_syms_rad",
   "sum_fx_latex_raw_trig_terms", "sum_fy_latex_raw_trig_terms",
   "constant_fx_sum", "constant_fy_sum",
   "symbolic_fx_latex_terms", "symbolic_fy_latex_terms",
   "unknown_symbols", "error",
   "_calculated_R_mag", "_calculated_R_alpha"]

/-- The literal key set of the Python dictionary returned by
`solve_for_equilibrium` in each of its two shapes. -/
def EqReturn.keys : EqReturn → List String
  | .errorOnly => ["error"]
  | .ok _ => eqFullKeys

/-- The `unknown_symbols` entry of the returned dictionary (empty in the
error-only shape, where the key is absent). -/
def EqReturn.unknownSyms : EqReturn → List Sym
  | .errorOnly => []
  | .ok r => r.unknown_symbols

/-- The `all_sols` entry of the returned dictionary (empty in the
error-only shape, where the key is absent). -/
def EqReturn.allSols : EqReturn → List Sol
  | .errorOnly => []
  | .ok r => r.all_sols

/-- Full outcome of one call: the Streamlit messages emitted, and the
returned dictionary. -/
structure EqOutcome where
  msgs : List Msg
  ret : EqReturn

/-- The determinacy advisory warnings emitted before the solve attempt
(lines 162-165): underdetermined when more than 2 unknowns,
overdetermined when fewer than 2 (there are always exactly 2
equations). -/
def advisoryMsgs (k : Nat) : List Msg :=
  if 2 < k then [Msg.underdeterminedWarn k]
  else if k < 2 then [Msg.overdeterminedWarn k] else []

/-- The `preferred_sols → real_sols → solution_set` fallback chain of
both solution filters (`equilibrium_solver.py` lines 218-230,
`resultant_solver.py` lines 250-262), together with the warning / info
messages each stage emits (including the final "no solutions" info of
lines 238-239 / 270-271, which fires exactly when the selected list is
empty).  Arguments are the already-filtered preferred list, the real
list, and the raw solution set. -/
def selectSols (pref reals raw : List Sol) : List Sol × List Msg :=
  match pref with
  | p :: ps => (p :: ps, [])
  | [] =>
    match reals with
    | r :: rs => (r :: rs, [Msg.negativeMagnitudeWarn])
    | [] =>
      match raw with
      | w :: ws => (w :: ws, [Msg.complexWarn])
      | [] => ([], [Msg.noSolutionsInfo, Msg.noSolutionsInfo])

/-- Shallow embedding of `solve_for_equilibrium`
(`src/solver/equilibrium_solver.py`).  `gs` is the oracle for the
`sp.solve` call in the general branch. -/
noncomputable def solve_for_equilibrium (vectors : List Vector) (gs : GS) : EqOutcome :=
  match classifyVectors 0 vectors with
  | .error m => ⟨[m], .errorOnly⟩
  | .ok specs =>
    let n := vectors.length
    let us := unknownSymbols specs
    let cfx := constantFxSum specs
    let cfy := constantFySum specs
    if us = [] then
      -- Fast path, lines 131-158: here every field is known, so
      -- float(sum_fx_expr) is the all-known component sum, which equals
      -- the constant sum accumulated by the loop.
      let resMag := round3 (hypot cfx cfy)
      let d := pymod (round2 (degrees (atan2 cfy cfx))) 360
      let resAng := if d < 0 then d + 360 else d
      let msg := if |resMag| < NUMERIC_ZERO_TOLERANCE then Msg.equilibriumSuccess
                 else Msg.notEquilibrium resMag resAng
      let sol : Sol := (SolKey.calcRMag, SolVal.numeric resMag) ::
        (SolKey.calcRAlpha, SolVal.numeric (radians resAng)) :: dummyBindings specs
      ⟨[msg], .ok ⟨[sol], us, cfx, cfy, resMag, radians resAng, false⟩⟩
    else
      let adv := advisoryMsgs us.length
      if isSimpleFTheta us then
        -- Closed-form branch, lines 182-196.
        let rfx := -cfx
        let rfy := -cfy
        let Fs := hypot rfx rfy
        let ths := atan2 rfy rfx
        let sol : Sol := [(SolKey.sym (.F (simpleIdx us)), SolVal.numeric Fs),
                          (SolKey.sym (.theta (simpleIdx us)), SolVal.numeric ths)]
        ⟨adv, .ok ⟨[sol], us, cfx, cfy, 0, 0, false⟩⟩
      else
        match gs with
        | .raiseExc =>
          -- Exception recovery, lines 232-235, then the final
          -- "no solutions" info at line 238-239.
          ⟨adv ++ [Msg.solveErrorMsg, Msg.noSolutionsInfo],
           .ok ⟨[], us, cfx, cfy, 0, 0, false⟩⟩
        | .ok raw =>
          -- Solution filter, lines 200-230.
          let reals := filterP isRealSol raw
          let sel := selectSols (filterP (isPreferredEq n) reals) reals raw
          ⟨adv ++ sel.2, .ok ⟨sel.1, us, cfx, cfy, 0, 0, false⟩⟩

/-- Numeric value of a run of decimal digits. -/
def digitsToNat (cs : List Char) : ℕ :=
  cs.foldl (fun n c => n * 10 + (c.toNat - 48)) 0

/-- Syntactic split of a decimal literal after stripping: sign flag,
integer-part digits, fraction-part digits.  `Option.none` when the
string is not of the form `[sign] digits [. digits]` with at least one
digit (in particular for a whitespace-only string). -/
def splitFloatLit (s : String) : Option (Bool × List Char × List Char) :=
  let t := stripChars s.toList
  let neg : Bool := match t with | '-' :: _ => true | _ => false
  let t := match t with | '-' :: r => r | '+' :: r => r | _ => t
  let ip := t.takeWhile (fun c => c ≠ '.')
  let rest := t.dropWhile (fun c => c ≠ '.')
  match rest with
  | [] => if ip ≠ [] ∧ ip.all Char.isDigit then some (neg, ip, []) else Option.none
  | _ :: r =>
    if r.contains '.' then Option.none
    else if (ip ++ r) ≠ [] ∧ (ip ++ r).all Char.isDigit then some (neg, ip, r)
    else Option.none

/-- Rational value of a split decimal literal. -/
def ratOfParts : Bool × List Char × List Char → ℚ
  | (neg, ip, fp) =>
    (if neg then -1 else 1) *
      ((digitsToNat ip : ℚ) + (digitsToNat fp : ℚ) / (10 : ℚ) ^ fp.length)

/-- Parse of a decimal literal, modelling the Python `float(s)` /
`sp.Float(s)` conversions used for the R and α text inputs
(`resultant_solver.py` lines 139-154) on the literal forms in scope.
A string that does not parse (in particular a whitespace-only string)
yields `Option.none`, which the caller turns into the `ValueError`
branch. -/
def parsePyFloat (s : String) : Option ℚ := (splitFloatLit s).map ratOfParts

/-- Specification of the resultant target magnitude R or angle α after
input handling: unknown (blank string) or a parsed numeric value. -/
inductive TargetSpec where
  | unknownT
  | val (q : ℚ)
deriving DecidableEq

/-- The `current_R_expr` / `current_alpha_rad_expr` entries of the
resultant result dictionary: the corresponding SymPy symbol, or a
numeric value. -/
inductive PyExpr where
  | symExpr (s : Sym)
  | valExpr (x : ℝ)

/-- Unknown-symbol contribution of the R target: `R` is appended when
the input string is blank (line 137). -/
def rTail : TargetSpec → List Sym
  | .unknownT => [Sym.R]
  | .val _ => []

/-- Unknown-symbol contribution of the α target (line 148). -/
def aTail : TargetSpec → List Sym
  | .unknownT => [Sym.alpha]
  | .val _ => []

/-- The `current_R_expr` used in the equations: the symbol when blank,
the parsed value otherwise (lines 135-140). -/
def rExprOf : TargetSpec → PyExpr
  | .unknownT => .symExpr .R
  | .val q => .valExpr (q : ℝ)

/-- The `current_alpha_rad_expr` used in the equations: the symbol when
blank, the parsed degree value converted to radians otherwise
(lines 146-151). -/
noncomputable def aExprOf : TargetSpec → PyExpr
  | .unknownT => .symExpr .alpha
  | .val q => .valExpr (radians (q : ℝ))

/-- The `is_simple_R_alpha_case` test (`resultant_solver.py` line 212):
exactly two unknowns which are `R` and `alpha_rad`. -/
def isSimpleRAlpha (us : List Sym) : Bool :=
  us.length == 2 && us.contains Sym.R && us.contains Sym.alpha

/-- The result dictionary of `solve_for_resultant` in its non-error
form (the return at lines 274-290); LaTeX entries as in `EqRecord`. -/
structure ResRecord where
  all_sols : List Sol
  unknown_symbols : List Sym
  constant_fx_sum : ℝ
  constant_fy_sum : ℝ
  current_R_expr : PyExpr
  current_alpha_rad_expr : PyExpr
  error : Bool

/-- The value returned by `solve_for_resultant`: the bare
`{"error": True}` dictionary, or the full result record. -/
inductive ResReturn where
  | errorOnly
  | ok (r : ResRecord)

/-- The literal key list of the full dictionary returned by
`solve_for_resultant` (lines 274-290). -/
def resFullKeys : List String :=
  ["all_sols", "F_syms", "theta_syms_rad", "R_sym", "alpha_sym_rad",
   "sum_fx_latex_raw_trig_terms", "sum_fy_latex_raw_trig_terms",
   "constant_fx_sum", "constant_fy_sum",
   "symbolic_fx_latex_terms", "symbolic_fy_latex_terms",
   "current_R_expr", "current_alpha_rad_expr",
   "unknown_symbols", "error"]

/-- The literal key set of the Python dictionary returned by
`solve_for_resultant` in each of its two shapes. -/
def ResReturn.keys : ResReturn → List String
  | .errorOnly => ["error"]
  | .ok _ => resFullKeys

/-- The `unknown_symbols` entry of the returned dictionary (empty in
the error-only shape, where the key is absent). -/
def ResReturn.unknownSyms : ResReturn → List Sym
  | .errorOnly => []
  | .ok r => r.unknown_symbols

/-- The `all_sols` entry of the returned dictionary (empty in the
error-only shape, where the key is absent). -/
def ResReturn.allSols : ResReturn → List Sol
  | .errorOnly => []
  | .ok r => r.all_sols

/-- Full outcome of one `solve_for_resultant` call. -/
structure ResOutcome where
  msgs : List Msg
  ret : ResReturn

/-- Core of `solve_for_resultant` after input validation: `rSpec` and
`aSpec` are the classified R and α targets (the Python code inlines
this after the two try/except blocks). -/
noncomputable def resultantCore (n : Nat) (specs : List ForceSpec)
    (rSpec aSpec : TargetSpec) (gs : GS) : ResOutcome :=
  let usF := unknownSymbols specs
  -- R is appended to the unknowns at line 137, α at line 148, after the
  -- per-force unknowns.
  let us := usF ++ rTail rSpec ++ aTail aSpec
  let cfx := constantFxSum specs
  let cfy := constantFySum specs
  let rExpr := rExprOf rSpec
  let aExpr := aExprOf aSpec
  if us = [] then
    match rSpec, aSpec with
    | .val qR, .val qA =>
      -- Fast path, lines 168-199: every field is known, so
      -- float(sum_fx_expr) is the all-known component sum, which equals
      -- the constant sum accumulated by the loop.
      let resMag := round3 (hypot cfx cfy)
      let d := pymod (round2 (degrees (atan2 cfy cfx))) 360
      let resAng := if d < 0 then d + 360 else d
      -- Lines 181-182: current_alpha_rad_expr holds radians(α input),
      -- converted back to degrees for the comparison.
      let consistent : Prop :=
        |resMag - (qR : ℝ)| < NUMERIC_ZERO_TOLERANCE ∧
          |resAng - degrees (radians (qA : ℝ))| < NUMERIC_ZERO_TOLERANCE
      let msg := if consistent then Msg.consistentMsg else Msg.inconsistentMsg
      let sol : Sol := (SolKey.sym .R, SolVal.numeric resMag) ::
        (SolKey.sym .alpha, SolVal.numeric (radians resAng)) :: dummyBindings specs
      ⟨[msg], .ok ⟨[sol], us, cfx, cfy, rExpr, aExpr, false⟩⟩
    | _, _ =>
      -- Unreachable: an unknown target puts R or alpha_rad into `us`.
      ⟨[], .errorOnly⟩
  else
    let adv := advisoryMsgs us.length
    if isSimpleRAlpha us then
      -- Closed-form branch, lines 214-228.  Here the only unknowns are
      -- R and alpha_rad, so every force is fully known and the
      -- substituted sums of lines 220-221 equal the constant sums.
      let Rs := hypot cfx cfy
      let als := atan2 cfy cfx
      let sol : Sol := [(SolKey.sym .R, SolVal.numeric Rs),
                        (SolKey.sym .alpha, SolVal.numeric als)]
      ⟨adv, .ok ⟨[sol], us, cfx, cfy, rExpr, aExpr, false⟩⟩
    else
      match gs with
      | .raiseExc =>
        ⟨adv ++ [Msg.solveErrorMsg, Msg.noSolutionsInfo],
         .ok ⟨[], us, cfx, cfy, rExpr, aExpr, false⟩⟩
      | .ok raw =>
        -- Solution filter, lines 232-262, with the additional R check
        -- in the preference predicate.
        let reals := filterP isRealSol raw
        let sel := selectSols (filterP (isPreferredRes n) reals) reals raw
        ⟨adv ++ sel.2, .ok ⟨sel.1, us, cfx, cfy, rExpr, aExpr, false⟩⟩

/-- Shallow embedding of `solve_for_resultant`
(`src/solver/resultant_solver.py`).  The R input is classified unknown
only when the string is exactly empty (line 135); otherwise it is
parsed, a failure aborting with `{"error": True}` (lines 139-143); the
α input is handled the same way afterwards (lines 146-154). -/
noncomputable def solve_for_resultant (vectors : List Vector)
    (rStr aStr : String) (gs : GS) : ResOutcome :=
  match classifyVectors 0 vectors with
  | .error m => ⟨[m], .errorOnly⟩
  | .ok specs =>
    if rStr = "" then
      if aStr = "" then resultantCore vectors.length specs .unknownT .unknownT gs
      else match parsePyFloat aStr with
        | Option.none => ⟨[Msg.invalidAlpha], .errorOnly⟩
        | some qA => resultantCore vectors.length specs .unknownT (.val qA) gs
    else match parsePyFloat rStr with
      | Option.none => ⟨[Msg.invalidR], .errorOnly⟩
      | some qR =>
        if aStr = "" then resultantCore vectors.length specs (.val qR) .unknownT gs
        else match parsePyFloat aStr with
          | Option.none => ⟨[Msg.invalidAlpha], .errorOnly⟩
          | some qA => resultantCore vectors.length specs (.val qR) (.val qA) gs

/-! Basic facts about the numeric helpers. -/

theorem hypot_nonneg (x y : ℝ) : 0 ≤ hypot x y := Real.sqrt_nonneg _

theorem hypot_eq_abs (x y : ℝ) : hypot x y = Complex.abs ⟨x, y⟩ := by
  rw [Complex.abs_apply, Complex.normSq_mk, hypot]
  ring_nf

theorem hypot_mul_cos (x y : ℝ) : hypot x y * Real.cos (atan2 y x) = x := by
  by_cases h : (Complex.mk x y) = 0
  · have hx : x = 0 := congrArg Complex.re h
    have hy : y = 0 := congrArg Complex.im h
    subst hx; subst hy
    simp [hypot]
  · have habs : Complex.abs ⟨x, y⟩ ≠ 0 := by
      simpa using (Complex.abs.ne_zero_iff).mpr h
    rw [atan2, Complex.cos_arg h, hypot_eq_abs]
    field_simp

theorem hypot_mul_sin (x y : ℝ) : hypot x y * Real.sin (atan2 y x) = y := by
  by_cases h : (Complex.mk x y) = 0
  · have hx : x = 0 := congrArg Complex.re h
    have hy : y = 0 := congrArg Complex.im h
    subst hx; subst hy
    simp [hypot]
  · have habs : Complex.abs ⟨x, y⟩ ≠ 0 := by
      simpa using (Complex.abs.ne_zero_iff).mpr h
    rw [atan2, Complex.sin_arg, hypot_eq_abs]
    field_simp

theorem radians_degrees (x : ℝ) : radians (degrees x) = x := by
  unfold radians degrees
  field_simp

theorem degrees_radians (x : ℝ) : degrees (radians x) = x := by
  unfold radians degrees
  field_simp

theorem pymod_nonneg (a : ℝ) {b : ℝ} (hb : 0 < b) : 0 ≤ pymod a b := by
  have h1 : (⌊a / b⌋ : ℝ) ≤ a / b := Int.floor_le _
  have h2 : b * (⌊a / b⌋ : ℝ) ≤ b * (a / b) := mul_le_mul_of_nonneg_left h1 hb.le
  have h3 : b * (a / b) = a := by field_simp
  unfold pymod; linarith

theorem pymod_lt (a : ℝ) {b : ℝ} (hb : 0 < b) : pymod a b < b := by
  have h1 : a / b < ⌊a / b⌋ + 1 := Int.lt_floor_add_one _
  have h2 : b * (a / b) < b * ((⌊a / b⌋ : ℝ) + 1) := (mul_lt_mul_left hb).mpr h1
  have h3 : b * (a / b) = a := by field_simp
  unfold pymod; nlinarith

/-- The post-normalization correction `if res_ang_n < 0: res_ang_n += 360`
is dead code over the real model: the Python `%` already lands in
`[0, 360)`. -/
theorem normAng_eq (x : ℝ) :
    (if pymod x 360 < 0 then pymod x 360 + 360 else pymod x 360) = pymod x 360 := by
  rw [if_neg (not_lt.2 (pymod_nonneg x (by norm_num)))]

/-! Facts about the proposition-valued filter. -/

theorem mem_filterP {α : Type} {p : α → Prop} {l : List α} {a : α} :
    a ∈ filterP p l ↔ a ∈ l ∧ p a := by
  induction l with
  | nil => simp [filterP]
  | cons b t ih =>
    by_cases h : p b
    · simp only [filterP, if_pos h, List.mem_cons, ih]
      constructor
      · rintro (rfl | ⟨hm, hp⟩)
        · exact ⟨Or.inl rfl, h⟩
        · exact ⟨Or.inr hm, hp⟩
      · rintro ⟨rfl | hm, hp⟩
        · exact Or.inl rfl
        · exact Or.inr ⟨hm, hp⟩
    · simp only [filterP, if_neg h, List.mem_cons, ih]
      constructor
      · rintro ⟨hm, hp⟩
        exact ⟨Or.inr hm, hp⟩
      · rintro ⟨rfl | hm, hp⟩
        · exact absurd hp h
        · exact ⟨hm, hp⟩

theorem filterP_eq_nil {α : Type} {p : α → Prop} {l : List α} :
    filterP p l = [] ↔ ∀ a ∈ l, ¬ p a := by
  induction l with
  | nil => simp [filterP]
  | cons b t ih =>
    by_cases h : p b
    · simp [filterP, if_pos h, h]
    · simp [filterP, if_neg h, ih, h]

theorem filterP_filterP {α : Type} (p q : α → Prop) (l : List α) :
    filterP p (filterP q l) = filterP (fun a => q a ∧ p a) l := by
  induction l with
  | nil => simp [filterP]
  | cons b t ih =>
    by_cases hq : q b
    · by_cases hp : p b
      · simp [filterP, if_pos hq, if_pos hp, if_pos (And.intro hq hp), ih]
      · have : ¬ (q b ∧ p b) := fun hc => hp hc.2
        simp [filterP, if_pos hq, if_neg hp, if_neg this, ih]
    · have : ¬ (q b ∧ p b) := fun hc => hq hc.1
      simp [filterP, if_neg hq, if_neg this, ih]

/-! Facts about the unknown-symbol accumulation. -/

/-- A classified force with both fields known. -/
def fullyKnown (f : ForceSpec) : Prop :=
  ∃ m a, f = ⟨.known m, .known a⟩

theorem unknownSymsOfForce_known {f : ForceSpec} (h : fullyKnown f) (i : Nat) :
    unknownSymsOfForce i f = [] := by
  obtain ⟨m, a, rfl⟩ := h
  rfl

theorem unknownSymsOfForce_both (i : Nat) :
    unknownSymsOfForce i ⟨.unknown, .unknown⟩ = [Sym.F i, Sym.theta i] := rfl

theorem unknownSymbolsAux_append (k : Nat) (l₁ l₂ : List ForceSpec) :
    unknownSymbolsAux k (l₁ ++ l₂) =
      unknownSymbolsAux k l₁ ++ unknownSymbolsAux (k + l₁.length) l₂ := by
  induction l₁ generalizing k with
  | nil => simp [unknownSymbolsAux]
  | cons f t ih =>
    have harith : k + 1 + t.length = k + (t.length + 1) := by omega
    simp only [List.cons_append, unknownSymbolsAux, List.append_assoc, List.length_cons]
    rw [show t.append l₂ = t ++ l₂ from rfl, ih, harith]

theorem unknownSymbolsAux_known (k : Nat) {l : List ForceSpec}
    (h : ∀ f ∈ l, fullyKnown f) : unknownSymbolsAux k l = [] := by
  induction l generalizing k with
  | nil => rfl
  | cons f t ih =>
    simp only [unknownSymbolsAux]
    rw [unknownSymsOfForce_known (h f (List.mem_cons_self f t)) k,
      ih _ (fun g hg => h g (List.mem_cons_of_mem f hg))]
    rfl

/-- The unknown-symbol list for a force list with a single fully
unknown force surrounded by fully known forces. -/
theorem unknownSymbols_single_unknown {pre post : List ForceSpec}
    (hpre : ∀ f ∈ pre, fullyKnown f) (hpost : ∀ f ∈ post, fullyKnown f) :
    unknownSymbols (pre ++ ⟨.unknown, .unknown⟩ :: post) =
      [Sym.F pre.length, Sym.theta pre.length] := by
  unfold unknownSymbols
  rw [unknownSymbolsAux_append 0 pre (⟨.unknown, .unknown⟩ :: post),
    unknownSymbolsAux_known 0 hpre]
  simp only [List.nil_append, Nat.zero_add, unknownSymbolsAux]
  rw [unknownSymbolsAux_known _ hpost, unknownSymsOfForce_both]
  rfl

/-- Constant component sums over a force list with a single fully
unknown force: the unknown force contributes nothing. -/
theorem constantFxSum_single_unknown (pre post : List ForceSpec) :
    constantFxSum (pre ++ ⟨.unknown, .unknown⟩ :: post) =
      constantFxSum pre + constantFxSum post := by
  unfold constantFxSum
  simp [constTermFx]

theorem constantFySum_single_unknown (pre post : List ForceSpec) :
    constantFySum (pre ++ ⟨.unknown, .unknown⟩ :: post) =
      constantFySum pre + constantFySum post := by
  unfold constantFySum
  simp [constTermFy]

theorem isSimpleFTheta_pair (i : Nat) :
    isSimpleFTheta [Sym.F i, Sym.theta i] = true := by
  simp [isSimpleFTheta, magIdxs, angIdxs, List.filterMap]

theorem simpleIdx_pair (i : Nat) : simpleIdx [Sym.F i, Sym.theta i] = i := rfl

/-- The required components of the closed-form branch (`required_fx`,
`required_fy`, lines 187-188), for a force list with one fully unknown
force between two fully known runs. -/
noncomputable def requiredFx (pre post : List ForceSpec) : ℝ :=
  -(constantFxSum (pre ++ (⟨.unknown, .unknown⟩ : ForceSpec) :: post))

/-- The required y-component of the closed-form branch. -/
noncomputable def requiredFy (pre post : List ForceSpec) : ℝ :=
  -(constantFySum (pre ++ (⟨.unknown, .unknown⟩ : ForceSpec) :: post))

/-- Shared helper: on any force list classifying to one fully unknown
force between fully known runs, `solve_for_equilibrium` produces the
closed-form outcome, independently of the general-solver oracle. -/
theorem solve_equilibrium_single_unknown (vectors : List Vector)
    (pre post : List ForceSpec) (gs : GS)
    (hclass : classifyVectors 0 vectors =
      .ok (pre ++ (⟨.unknown, .unknown⟩ : ForceSpec) :: post))
    (hpre : ∀ f ∈ pre, fullyKnown f) (hpost : ∀ f ∈ post, fullyKnown f) :
    solve_for_equilibrium vectors gs =
      ⟨[], .ok ⟨[[(SolKey.sym (.F pre.length),
              SolVal.numeric (hypot (requiredFx pre post) (requiredFy pre post))),
             (SolKey.sym (.theta pre.length),
              SolVal.numeric (atan2 (requiredFy pre post) (requiredFx pre post)))]],
           [Sym.F pre.length, Sym.theta pre.length],
           constantFxSum (pre ++ (⟨.unknown, .unknown⟩ : ForceSpec) :: post),
           constantFySum (pre ++ (⟨.unknown, .unknown⟩ : ForceSpec) :: post),
           0, 0, false⟩⟩ := by
  have hus : unknownSymbols (pre ++ (⟨.unknown, .unknown⟩ : ForceSpec) :: post) =
      [Sym.F pre.length, Sym.theta pre.length] :=
    unknownSymbols_single_unknown hpre hpost
  unfold solve_for_equilibrium requiredFx requiredFy
  rw [hclass]
  simp only [hus, advisoryMsgs, isSimpleFTheta_pair, simpleIdx_pair, if_true,
    List.cons_ne_nil, if_false, List.length_cons, List.length_nil, List.length_singleton]
  try norm_num

/-- C1: for a force list in which exactly one magnitude and one angle
are unknown and both belong to the same force, with every other field
numeric, `solve_for_equilibrium` takes the closed-form branch
(independently of what the general solver would do) and returns exactly
one solution, whose magnitude is `hypot` of the negated known component
sums (hence non-negative) and whose angle is `atan2` of them. -/
theorem claim1_closed_form_same_force (vectors : List Vector)
    (pre post : List ForceSpec) (gs : GS)
    (hclass : classifyVectors 0 vectors =
      .ok (pre ++ (⟨.unknown, .unknown⟩ : ForceSpec) :: post))
    (hpre : ∀ f ∈ pre, fullyKnown f) (hpost : ∀ f ∈ post, fullyKnown f) :
    (solve_for_equilibrium vectors gs).msgs = [] ∧
    (solve_for_equilibrium vectors gs).ret =
      .ok ⟨[[(SolKey.sym (.F pre.length),
              SolVal.numeric (hypot (requiredFx pre post) (requiredFy pre post))),
             (SolKey.sym (.theta pre.length),
              SolVal.numeric (atan2 (requiredFy pre post) (requiredFx pre post)))]],
           [Sym.F pre.length, Sym.theta pre.length],
           constantFxSum (pre ++ (⟨.unknown, .unknown⟩ : ForceSpec) :: post),
           constantFySum (pre ++ (⟨.unknown, .unknown⟩ : ForceSpec) :: post),
           0, 0, false⟩ ∧
    0 ≤ hypot (requiredFx pre post) (requiredFy pre post) := by
  rw [solve_equilibrium_single_unknown vectors pre post gs hclass hpre hpost]
  exact ⟨rfl, rfl, hypot_nonneg _ _⟩

/-- Witness for C1: for the forces (10 @ 0°) and (unknown magnitude @
unknown angle), the closed-form branch returns the single solution with
magnitude 10 and angle π radians (180°). -/
theorem claim1_witness :
    (solve_for_equilibrium
      [⟨FieldInput.num 0, FieldInput.num 10, 0⟩,
       ⟨FieldInput.none, FieldInput.none, 0⟩] (GS.ok [])).ret =
      .ok ⟨[[(SolKey.sym (.F 1), SolVal.numeric 10),
             (SolKey.sym (.theta 1), SolVal.numeric Real.pi)]],
           [Sym.F 1, Sym.theta 1], 10, 0, 0, 0, false⟩ := by
  have h := claim1_closed_form_same_force
    [⟨FieldInput.num 0, FieldInput.num 10, 0⟩, ⟨FieldInput.none, FieldInput.none, 0⟩]
    [⟨.known 10, .known 0⟩] [] (GS.ok []) rfl
    (by rintro f hf; rw [List.mem_singleton] at hf; exact ⟨10, 0, hf⟩)
    (by rintro f hf; cases hf)
  have hcfx : constantFxSum
      ([⟨.known 10, .known 0⟩] ++ (⟨.unknown, .unknown⟩ : ForceSpec) :: []) = 10 := by
    simp [constantFxSum, constTermFx, radians]
  have hcfy : constantFySum
      ([⟨.known 10, .known 0⟩] ++ (⟨.unknown, .unknown⟩ : ForceSpec) :: []) = 0 := by
    simp [constantFySum, constTermFy, radians]
  have hrfx : requiredFx [⟨.known 10, .known 0⟩] [] = -10 := by
    rw [requiredFx, hcfx]
  have hrfy : requiredFy [⟨.known 10, .known 0⟩] [] = -0 := by
    rw [requiredFy, hcfy]
  rw [h.2.1, hrfx, hrfy, hcfx, hcfy]
  have hhyp : hypot (-(10 : ℝ)) (-(0 : ℝ)) = 10 := by
    rw [hypot, show (-(10:ℝ)) ^ 2 + (-(0:ℝ)) ^ 2 = 10 ^ 2 by norm_num,
      Real.sqrt_sq (by norm_num)]
  have hmk : (⟨(-(10:ℝ)), (-(0:ℝ))⟩ : ℂ) = ((-10 : ℝ) : ℂ) := by
    apply Complex.ext <;> simp
  have hatan : atan2 (-(0 : ℝ)) (-(10 : ℝ)) = Real.pi := by
    rw [atan2, hmk, Complex.arg_ofReal_of_neg (by norm_num)]
  rw [hhyp, hatan]
  rfl

/-- C8: round trip of the closed-form branch.  When the solver's
closed-form branch returns magnitude `Fs` and angle `ths` (radians) for
the single fully unknown force, substituting them back as fully known
magnitude and degree angle of that force makes both component sums of
the now all-known system vanish within the zero tolerance (they are in
fact exactly zero over the real model). -/
theorem claim8_round_trip (vectors : List Vector)
    (pre post : List ForceSpec) (gs : GS) (Fs ths : ℝ)
    (hclass : classifyVectors 0 vectors =
      .ok (pre ++ (⟨.unknown, .unknown⟩ : ForceSpec) :: post))
    (hpre : ∀ f ∈ pre, fullyKnown f) (hpost : ∀ f ∈ post, fullyKnown f)
    (hsol : (solve_for_equilibrium vectors gs).ret.allSols =
      [[(SolKey.sym (.F pre.length), SolVal.numeric Fs),
        (SolKey.sym (.theta pre.length), SolVal.numeric ths)]]) :
    |constantFxSum (pre ++ (⟨.known Fs, .known (degrees ths)⟩ : ForceSpec) :: post)| <
      NUMERIC_ZERO_TOLERANCE ∧
    |constantFySum (pre ++ (⟨.known Fs, .known (degrees ths)⟩ : ForceSpec) :: post)| <
      NUMERIC_ZERO_TOLERANCE := by
  rw [solve_equilibrium_single_unknown vectors pre post gs hclass hpre hpost] at hsol
  simp only [EqReturn.allSols] at hsol
  injection hsol with h1 h2
  injection h1 with ha hrest
  injection ha with hk1 hv1
  injection hv1 with hFs
  injection hrest with hb hnil
  injection hb with hk2 hv2
  injection hv2 with hths
  subst hFs; subst hths
  have hsplitx : constantFxSum (pre ++
      (⟨.known (hypot (requiredFx pre post) (requiredFy pre post)),
        .known (degrees (atan2 (requiredFy pre post) (requiredFx pre post)))⟩ : ForceSpec)
      :: post) = constantFxSum pre +
        (hypot (requiredFx pre post) (requiredFy pre post) *
          Real.cos (radians (degrees (atan2 (requiredFy pre post) (requiredFx pre post))))) +
        constantFxSum post := by
    simp [constantFxSum, constTermFx]
    ring
  have hsplity : constantFySum (pre ++
      (⟨.known (hypot (requiredFx pre post) (requiredFy pre post)),
        .known (degrees (atan2 (requiredFy pre post) (requiredFx pre post)))⟩ : ForceSpec)
      :: post) = constantFySum pre +
        (hypot (requiredFx pre post) (requiredFy pre post) *
          Real.sin (radians (degrees (atan2 (requiredFy pre post) (requiredFx pre post))))) +
        constantFySum post := by
    simp [constantFySum, constTermFy]
    ring
  have horigx : requiredFx pre post = -(constantFxSum pre + constantFxSum post) := by
    rw [requiredFx, constantFxSum_single_unknown]
  have horigy : requiredFy pre post = -(constantFySum pre + constantFySum post) := by
    rw [requiredFy, constantFySum_single_unknown]
  have hcos : hypot (requiredFx pre post) (requiredFy pre post) *
      Real.cos (radians (degrees (atan2 (requiredFy pre post) (requiredFx pre post)))) =
      requiredFx pre post := by
    rw [radians_degrees, hypot_mul_cos]
  have hsin : hypot (requiredFx pre post) (requiredFy pre post) *
      Real.sin (radians (degrees (atan2 (requiredFy pre post) (requiredFx pre post)))) =
      requiredFy pre post := by
    rw [radians_degrees, hypot_mul_sin]
  constructor
  · rw [hsplitx, hcos, horigx]
    norm_num [NUMERIC_ZERO_TOLERANCE]
  · rw [hsplity, hsin, horigy]
    norm_num [NUMERIC_ZERO_TOLERANCE]

/-- Witness for C8 at the single fully unknown force: substituting the
closed-form solution back yields residual sums below the tolerance. -/
theorem claim8_witness :
    |constantFxSum ([] ++
      (⟨.known (hypot (requiredFx [] []) (requiredFy [] [])),
        .known (degrees (atan2 (requiredFy [] []) (requiredFx [] [])))⟩ : ForceSpec)
      :: [])| < NUMERIC_ZERO_TOLERANCE ∧
    |constantFySum ([] ++
      (⟨.known (hypot (requiredFx [] []) (requiredFy [] [])),
        .known (degrees (atan2 (requiredFy [] []) (requiredFx [] [])))⟩ : ForceSpec)
      :: [])| < NUMERIC_ZERO_TOLERANCE :=
  claim8_round_trip [⟨FieldInput.none, FieldInput.none, 0⟩] [] [] (GS.ok [])
    (hypot (requiredFx [] []) (requiredFy [] []))
    (atan2 (requiredFy [] []) (requiredFx [] []))
    rfl (by simp) (by simp)
    (by rw [solve_equilibrium_single_unknown [⟨FieldInput.none, FieldInput.none, 0⟩]
          [] [] (GS.ok []) rfl (by simp) (by simp)]
        rfl)

/-! The solution-filter fallback chain. -/

theorem selectSols_fst_pref {pref reals raw : List Sol} (h : pref ≠ []) :
    (selectSols pref reals raw).1 = pref := by
  cases pref with
  | nil => exact absurd rfl h
  | cons p ps => rfl

theorem selectSols_fst_real {reals raw : List Sol} (h : reals ≠ []) :
    (selectSols [] reals raw).1 = reals := by
  cases reals with
  | nil => exact absurd rfl h
  | cons r rs => rfl

theorem selectSols_fst_raw (raw : List Sol) :
    (selectSols [] [] raw).1 = raw := by
  cases raw with
  | nil => rfl
  | cons w ws => rfl

/-- Outcome of the general branch of `solve_for_equilibrium` when the
`sp.solve` call returns `raw`. -/
theorem solve_equilibrium_general (vectors : List Vector) (specs : List ForceSpec)
    (raw : List Sol)
    (hclass : classifyVectors 0 vectors = .ok specs)
    (hus : unknownSymbols specs ≠ [])
    (hsimple : isSimpleFTheta (unknownSymbols specs) = false) :
    solve_for_equilibrium vectors (.ok raw) =
      ⟨advisoryMsgs (unknownSymbols specs).length ++
         (selectSols (filterP (isPreferredEq vectors.length) (filterP isRealSol raw))
           (filterP isRealSol raw) raw).2,
       .ok ⟨(selectSols (filterP (isPreferredEq vectors.length) (filterP isRealSol raw))
               (filterP isRealSol raw) raw).1,
            unknownSymbols specs, constantFxSum specs, constantFySum specs, 0, 0, false⟩⟩ := by
  unfold solve_for_equilibrium
  rw [hclass]
  simp only [if_neg hus, hsimple, Bool.false_eq_true, if_false]

/-- Outcome of the general branch of `resultantCore` when the `sp.solve`
call returns `raw`.  `usAll` abbreviates the full unknown list with the
R / α symbols appended. -/
theorem resultantCore_general (n : Nat) (specs : List ForceSpec)
    (rS aS : TargetSpec) (raw : List Sol)
    (hus : unknownSymbols specs ++ rTail rS ++ aTail aS ≠ [])
    (hsimple : isSimpleRAlpha (unknownSymbols specs ++ rTail rS ++ aTail aS) = false) :
    resultantCore n specs rS aS (.ok raw) =
      ⟨advisoryMsgs (unknownSymbols specs ++ rTail rS ++ aTail aS).length ++
         (selectSols (filterP (isPreferredRes n) (filterP isRealSol raw))
           (filterP isRealSol raw) raw).2,
       .ok ⟨(selectSols (filterP (isPreferredRes n) (filterP isRealSol raw))
               (filterP isRealSol raw) raw).1,
            unknownSymbols specs ++ rTail rS ++ aTail aS,
            constantFxSum specs, constantFySum specs,
            rExprOf rS, aExprOf aS, false⟩⟩ := by
  unfold resultantCore
  simp only [if_neg hus, hsimple, Bool.false_eq_true, if_false]

/-- Derived description of the R / α input dispatching of
`solve_for_resultant` (lines 134-154): blank means unknown, otherwise
the string must parse; `Option.none` is the validation-error case. -/
def targetSpecOf (s : String) : Option TargetSpec :=
  if s = "" then some .unknownT else (parsePyFloat s).map .val

theorem parsePyFloat_zero : parsePyFloat "0" = some 0 := by
  have h : splitFloatLit "0" = some (false, ['0'], []) := by decide
  have hd : digitsToNat ['0'] = 0 := by decide
  have hd0 : digitsToNat [] = 0 := by decide
  rw [parsePyFloat, h, Option.map_some']
  simp only [ratOfParts, hd, hd0]
  norm_num

theorem targetSpecOf_zero : targetSpecOf "0" = some (.val 0) := by
  rw [targetSpecOf, if_neg (by decide), parsePyFloat_zero, Option.map_some']

/-- The dispatcher of `solve_for_resultant` reduces to `resultantCore`
whenever classification and both target parses succeed. -/
theorem solve_for_resultant_eq_core (vectors : List Vector) (specs : List ForceSpec)
    (rStr aStr : String) (rS aS : TargetSpec) (gs : GS)
    (hclass : classifyVectors 0 vectors = .ok specs)
    (hr : targetSpecOf rStr = some rS) (ha : targetSpecOf aStr = some aS) :
    solve_for_resultant vectors rStr aStr gs =
      resultantCore vectors.length specs rS aS gs := by
  unfold solve_for_resultant
  simp only [hclass]
  unfold targetSpecOf at hr ha
  by_cases h1 : rStr = ""
  · rw [if_pos h1] at hr
    injection hr with hr
    subst hr
    by_cases h2 : aStr = ""
    · rw [if_pos h2] at ha
      injection ha with ha
      subst ha
      simp only [if_pos h1, if_pos h2]
    · rw [if_neg h2] at ha
      cases hq : parsePyFloat aStr with
      | none => rw [hq] at ha; simp at ha
      | some q =>
        rw [hq] at ha
        simp only [Option.map_some'] at ha
        injection ha with ha
        subst ha
        simp only [if_pos h1, if_neg h2, hq]
  · rw [if_neg h1] at hr
    cases hqr : parsePyFloat rStr with
    | none => rw [hqr] at hr; simp at hr
    | some qr =>
      rw [hqr] at hr
      simp only [Option.map_some'] at hr
      injection hr with hr
      subst hr
      by_cases h2 : aStr = ""
      · rw [if_pos h2] at ha
        injection ha with ha
        subst ha
        simp only [if_neg h1, hqr, if_pos h2]
      · rw [if_neg h2] at ha
        cases hq : parsePyFloat aStr with
        | none => rw [hq] at ha; simp at ha
        | some q =>
          rw [hq] at ha
          simp only [Option.map_some'] at ha
          injection ha with ha
          subst ha
          simp only [if_neg h1, hqr, if_neg h2, hq]

/-- Abstract description of the fallback chain: the selected list is the
doubly filtered list when non-empty, else the real-filtered list when
non-empty, else the raw list. -/
theorem select_cases (p q : Sol → Prop) (raw : List Sol) :
    ((∃ s ∈ raw, q s ∧ p s) →
      (selectSols (filterP p (filterP q raw)) (filterP q raw) raw).1 =
        filterP (fun s => q s ∧ p s) raw) ∧
    ((∀ s ∈ raw, ¬ (q s ∧ p s)) → (∃ s ∈ raw, q s) →
      (selectSols (filterP p (filterP q raw)) (filterP q raw) raw).1 =
        filterP q raw) ∧
    ((∀ s ∈ raw, ¬ q s) →
      (selectSols (filterP p (filterP q raw)) (filterP q raw) raw).1 = raw) := by
  refine ⟨?_, ?_, ?_⟩
  · intro h
    rw [filterP_filterP]
    apply selectSols_fst_pref
    rw [Ne, filterP_eq_nil]
    push_neg
    obtain ⟨s, hs, hq, hp⟩ := h
    exact ⟨s, hs, hq, hp⟩
  · intro hnone hex
    have hpref : filterP p (filterP q raw) = [] := by
      rw [filterP_filterP, filterP_eq_nil]
      exact hnone
    rw [hpref]
    apply selectSols_fst_real
    rw [Ne, filterP_eq_nil]
    push_neg
    exact hex
  · intro hnone
    have hreal : filterP q raw = [] := filterP_eq_nil.mpr hnone
    have hpref : filterP p (filterP q raw) = [] := by rw [hreal]; rfl
    rw [hpref, hreal]
    exact selectSols_fst_raw raw

/-- C2: in the general branch of either solver, the returned solution
list follows the exact precedence: all real solutions whose numeric
force-magnitude bindings (and R binding, resultant variant) are
non-negative if any exist; otherwise all real solutions if any exist;
otherwise the raw solution set unchanged. -/
theorem claim2_solution_filter_precedence :
    (∀ (vectors : List Vector) (specs : List ForceSpec) (raw : List Sol),
      classifyVectors 0 vectors = .ok specs →
      unknownSymbols specs ≠ [] →
      isSimpleFTheta (unknownSymbols specs) = false →
      ((∃ s ∈ raw, isRealSol s ∧ isPreferredEq vectors.length s) →
        (solve_for_equilibrium vectors (.ok raw)).ret.allSols =
          filterP (fun s => isRealSol s ∧ isPreferredEq vectors.length s) raw) ∧
      ((∀ s ∈ raw, ¬ (isRealSol s ∧ isPreferredEq vectors.length s)) →
        (∃ s ∈ raw, isRealSol s) →
        (solve_for_equilibrium vectors (.ok raw)).ret.allSols = filterP isRealSol raw) ∧
      ((∀ s ∈ raw, ¬ isRealSol s) →
        (solve_for_equilibrium vectors (.ok raw)).ret.allSols = raw)) ∧
    (∀ (vectors : List Vector) (specs : List ForceSpec) (rStr aStr : String)
       (rS aS : TargetSpec) (raw : List Sol),
      classifyVectors 0 vectors = .ok specs →
      targetSpecOf rStr = some rS → targetSpecOf aStr = some aS →
      unknownSymbols specs ++ rTail rS ++ aTail aS ≠ [] →
      isSimpleRAlpha (unknownSymbols specs ++ rTail rS ++ aTail aS) = false →
      ((∃ s ∈ raw, isRealSol s ∧ isPreferredRes vectors.length s) →
        (solve_for_resultant vectors rStr aStr (.ok raw)).ret.allSols =
          filterP (fun s => isRealSol s ∧ isPreferredRes vectors.length s) raw) ∧
      ((∀ s ∈ raw, ¬ (isRealSol s ∧ isPreferredRes vectors.length s)) →
        (∃ s ∈ raw, isRealSol s) →
        (solve_for_resultant vectors rStr aStr (.ok raw)).ret.allSols =
          filterP isRealSol raw) ∧
      ((∀ s ∈ raw, ¬ isRealSol s) →
        (solve_for_resultant vectors rStr aStr (.ok raw)).ret.allSols = raw)) := by
  constructor
  · intro vectors specs raw hclass hus hsimple
    rw [solve_equilibrium_general vectors specs raw hclass hus hsimple]
    simp only [EqReturn.allSols]
    exact select_cases (isPreferredEq vectors.length) isRealSol raw
  · intro vectors specs rStr aStr rS aS raw hclass hr ha hus hsimple
    rw [solve_for_resultant_eq_core vectors specs rStr aStr rS aS (.ok raw) hclass hr ha,
      resultantCore_general vectors.length specs rS aS raw hus hsimple]
    simp only [ResReturn.allSols]
    exact select_cases (isPreferredRes vectors.length) isRealSol raw

/-- Witness for C2: one force with unknown magnitude at a known angle,
and a raw candidate set whose only solution binds that magnitude to the
negative number -5: no preferred solution exists, so the real fallback
returns the real-filtered list. -/
theorem claim2_witness :
    (solve_for_equilibrium [⟨FieldInput.num 0, FieldInput.none, 0⟩]
      (GS.ok [[(SolKey.sym (.F 0), SolVal.numeric (-5))]])).ret.allSols =
      filterP isRealSol [[(SolKey.sym (.F 0), SolVal.numeric (-5))]] := by
  refine (claim2_solution_filter_precedence.1
    [⟨FieldInput.num 0, FieldInput.none, 0⟩] [⟨.unknown, .known 0⟩]
    [[(SolKey.sym (.F 0), SolVal.numeric (-5))]] rfl (by decide) rfl).2.1 ?_ ?_
  · rintro s hs
    rw [List.mem_singleton] at hs
    subst hs
    rintro ⟨-, hpref⟩
    exact hpref ⟨0, -5, by norm_num, by simp, by norm_num⟩
  · refine ⟨[(SolKey.sym (.F 0), SolVal.numeric (-5))], List.mem_singleton_self _, ?_⟩
    rintro ⟨k, v⟩ hkv
    rw [List.mem_singleton] at hkv
    injection hkv with hk hv
    subst hv
    simp

/-- Outcome of the zero-unknown fast path of `solve_for_equilibrium`:
for any oracle, the returned record carries the rounded resultant
magnitude and the rounded, normalized resultant angle (stored in
radians), the verdict message follows the tolerance comparison on the
rounded magnitude, and the single synthetic solution is returned. -/
theorem solve_equilibrium_fastpath (vectors : List Vector) (specs : List ForceSpec)
    (gs : GS)
    (hclass : classifyVectors 0 vectors = .ok specs)
    (hzero : unknownSymbols specs = []) :
    solve_for_equilibrium vectors gs =
      ⟨[if |round3 (hypot (constantFxSum specs) (constantFySum specs))| <
            NUMERIC_ZERO_TOLERANCE
        then Msg.equilibriumSuccess
        else Msg.notEquilibrium
          (round3 (hypot (constantFxSum specs) (constantFySum specs)))
          (pymod (round2 (degrees (atan2 (constantFySum specs) (constantFxSum specs)))) 360)],
       .ok ⟨[(SolKey.calcRMag,
              SolVal.numeric (round3 (hypot (constantFxSum specs) (constantFySum specs)))) ::
             (SolKey.calcRAlpha,
              SolVal.numeric (radians (pymod
                (round2 (degrees (atan2 (constantFySum specs) (constantFxSum specs)))) 360))) ::
             dummyBindings specs],
            [], constantFxSum specs, constantFySum specs,
            round3 (hypot (constantFxSum specs) (constantFySum specs)),
            radians (pymod
              (round2 (degrees (atan2 (constantFySum specs) (constantFxSum specs)))) 360),
            false⟩⟩ := by
  unfold solve_for_equilibrium
  rw [hclass]
  simp only [hzero, eq_self_iff_true, if_true]
  rw [normAng_eq]

/-- C3 (amended): for an all-numeric force list the solver never
consults the general-solver oracle; the record's equilibrium magnitude
field holds `hypot(ΣFx, ΣFy)` rounded to 3 decimals and its angle field
holds `atan2(ΣFy, ΣFx)` in degrees rounded to 2 decimals, normalized
into [0°, 360°), stored in radians; the system is reported in
equilibrium iff the rounded magnitude is below the 1e-6 tolerance, and
otherwise the exact rounded magnitude and angle are reported. -/
theorem claim3_fast_path (vectors : List Vector) (specs : List ForceSpec)
    (gs gs' : GS)
    (hclass : classifyVectors 0 vectors = .ok specs)
    (hzero : unknownSymbols specs = []) :
    solve_for_equilibrium vectors gs = solve_for_equilibrium vectors gs' ∧
    ∃ r, (solve_for_equilibrium vectors gs).ret = .ok r ∧
      r.calculated_R_mag = round3 (hypot (constantFxSum specs) (constantFySum specs)) ∧
      r.calculated_R_alpha = radians (pymod
        (round2 (degrees (atan2 (constantFySum specs) (constantFxSum specs)))) 360) ∧
      0 ≤ pymod (round2 (degrees (atan2 (constantFySum specs) (constantFxSum specs)))) 360 ∧
      pymod (round2 (degrees (atan2 (constantFySum specs) (constantFxSum specs)))) 360 < 360 ∧
      ((solve_for_equilibrium vectors gs).msgs = [Msg.equilibriumSuccess] ↔
        |round3 (hypot (constantFxSum specs) (constantFySum specs))| <
          NUMERIC_ZERO_TOLERANCE) ∧
      (¬ |round3 (hypot (constantFxSum specs) (constantFySum specs))| <
          NUMERIC_ZERO_TOLERANCE →
        (solve_for_equilibrium vectors gs).msgs =
          [Msg.notEquilibrium
            (round3 (hypot (constantFxSum specs) (constantFySum specs)))
            (pymod (round2 (degrees (atan2 (constantFySum specs) (constantFxSum specs))))
              360)]) := by
  have h := solve_equilibrium_fastpath vectors specs gs hclass hzero
  have h' := solve_equilibrium_fastpath vectors specs gs' hclass hzero
  refine ⟨h.trans h'.symm, ?_⟩
  rw [h]
  refine ⟨_, rfl, rfl, rfl, pymod_nonneg _ (by norm_num), pymod_lt _ (by norm_num), ?_, ?_⟩
  · by_cases hc : |round3 (hypot (constantFxSum specs) (constantFySum specs))| <
        NUMERIC_ZERO_TOLERANCE
    · rw [if_pos hc]
      exact ⟨fun _ => hc, fun _ => rfl⟩
    · rw [if_neg hc]
      constructor
      · intro hmsg
        exact absurd (List.head_eq_of_cons_eq hmsg) (by intro hh; cases hh)
      · intro hcon
        exact absurd hcon hc
  · intro hc
    rw [if_neg hc]

/-- Counterexample for C3 as stated: a single force of magnitude 1/2500
(= 0.0004) at angle 0° is classified as in equilibrium (because the
solver compares the magnitude only after rounding it to 3 decimals),
although the true resultant magnitude `hypot(ΣFx, ΣFy) = 0.0004` is not
below the 1e-6 tolerance. -/
theorem claim3_counterexample :
    (solve_for_equilibrium [⟨FieldInput.num 0, FieldInput.num (1/2500), 0⟩]
      (GS.ok [])).msgs = [Msg.equilibriumSuccess] ∧
    ¬ (hypot (constantFxSum [⟨.known (1/2500), .known 0⟩])
         (constantFySum [⟨.known (1/2500), .known 0⟩]) < NUMERIC_ZERO_TOLERANCE) := by
  have hcfx : constantFxSum [⟨.known (1/2500), .known 0⟩] = 1/2500 := by
    simp [constantFxSum, constTermFx, radians]
  have hcfy : constantFySum [⟨.known (1/2500), .known 0⟩] = 0 := by
    simp [constantFySum, constTermFy, radians]
  have hhyp : hypot (1/2500 : ℝ) 0 = 1/2500 := by
    rw [hypot, show ((1/2500 : ℝ)) ^ 2 + (0 : ℝ) ^ 2 = (1/2500) ^ 2 by ring,
      Real.sqrt_sq (by norm_num)]
  have hfl : ⌊(1/2500 : ℝ) * 1000 + 1/2⌋ = 0 := by
    rw [Int.floor_eq_iff]
    norm_num
  have hround : round3 (1/2500 : ℝ) = 0 := by
    rw [round3, round_eq, hfl]
    norm_num
  constructor
  · rw [solve_equilibrium_fastpath [⟨FieldInput.num 0, FieldInput.num (1/2500), 0⟩]
      [⟨.known (1/2500), .known 0⟩] (GS.ok []) rfl rfl]
    rw [hcfx, hcfy, hhyp, hround]
    rw [if_pos (by norm_num [NUMERIC_ZERO_TOLERANCE])]
  · rw [hcfx, hcfy, hhyp]
    norm_num [NUMERIC_ZERO_TOLERANCE]

/-- Witness for C3 (amended): a single zero force is classified as in
equilibrium by the fast path. -/
theorem claim3_witness :
    (solve_for_equilibrium [⟨FieldInput.num 0, FieldInput.num 0, 0⟩] (GS.ok [])).msgs =
      [Msg.equilibriumSuccess] := by
  have h := claim3_fast_path [⟨FieldInput.num 0, FieldInput.num 0, 0⟩]
    [⟨.known 0, .known 0⟩] (GS.ok []) GS.raiseExc rfl rfl
  obtain ⟨-, r, -, -, -, -, -, hiff, -⟩ := h
  rw [hiff]
  have hcfx : constantFxSum [⟨.known 0, .known 0⟩] = 0 := by
    simp [constantFxSum, constTermFx]
  have hcfy : constantFySum [⟨.known 0, .known 0⟩] = 0 := by
    simp [constantFySum, constTermFy]
  rw [hcfx, hcfy]
  have hhyp : hypot (0 : ℝ) 0 = 0 := by
    rw [hypot]
    norm_num
  rw [hhyp]
  have hr : round3 (0 : ℝ) = 0 := by
    rw [round3]
    norm_num
  rw [hr]
  norm_num [NUMERIC_ZERO_TOLERANCE]

/-- Outcome of the zero-unknown fast path of the resultant core: the
rounded resultant magnitude and normalized rounded angle are computed,
the consistency verdict message compares them with the user-supplied
targets within the tolerance, and the single synthetic solution is
returned. -/
theorem resultantCore_fastpath (n : Nat) (specs : List ForceSpec) (qR qA : ℚ)
    (gs : GS) (hzero : unknownSymbols specs = []) :
    resultantCore n specs (.val qR) (.val qA) gs =
      ⟨[if |round3 (hypot (constantFxSum specs) (constantFySum specs)) - (qR : ℝ)| <
            NUMERIC_ZERO_TOLERANCE ∧
          |pymod (round2 (degrees (atan2 (constantFySum specs) (constantFxSum specs)))) 360 -
              degrees (radians (qA : ℝ))| < NUMERIC_ZERO_TOLERANCE
        then Msg.consistentMsg else Msg.inconsistentMsg],
       .ok ⟨[(SolKey.sym .R,
              SolVal.numeric (round3 (hypot (constantFxSum specs) (constantFySum specs)))) ::
             (SolKey.sym .alpha,
              SolVal.numeric (radians (pymod
                (round2 (degrees (atan2 (constantFySum specs) (constantFxSum specs)))) 360))) ::
             dummyBindings specs],
            [], constantFxSum specs, constantFySum specs,
            .valExpr (qR : ℝ), .valExpr (radians (qA : ℝ)), false⟩⟩ := by
  unfold resultantCore
  simp only [hzero, rTail, aTail, rExprOf, aExprOf, List.nil_append, List.append_nil,
    eq_self_iff_true, if_true]
  rw [normAng_eq]

/-- The synthetic drawing solution binds each fully known force's
magnitude symbol to its value and its angle symbol to its value in
radians. -/
theorem dummyBindings_mem (specs : List ForceSpec) (i : Nat) (m a : ℝ)
    (h : specs[i]? = some ⟨.known m, .known a⟩) :
    (SolKey.sym (.F i), SolVal.numeric m) ∈ dummyBindings specs ∧
    (SolKey.sym (.theta i), SolVal.numeric (radians a)) ∈ dummyBindings specs := by
  have hmem : (i, (⟨.known m, .known a⟩ : ForceSpec)) ∈ specs.enum :=
    List.mk_mem_enum_iff_getElem?.mpr h
  constructor <;>
  · rw [dummyBindings, List.mem_flatten]
    refine ⟨_, List.mem_map_of_mem _ hmem, ?_⟩
    simp

/-- C9: for an all-numeric input, both solvers return exactly one
synthetic solution, which records the computed (rounded) resultant
magnitude and angle and binds every force's magnitude symbol to its
known value and every angle symbol to its known value in radians, even
though no equation solving occurred. -/
theorem claim9_synthetic_solution :
    (∀ (vectors : List Vector) (specs : List ForceSpec) (gs : GS),
      classifyVectors 0 vectors = .ok specs →
      unknownSymbols specs = [] →
      ∃ sol, (solve_for_equilibrium vectors gs).ret.allSols = [sol] ∧
        (SolKey.calcRMag,
          SolVal.numeric (round3 (hypot (constantFxSum specs) (constantFySum specs)))) ∈ sol ∧
        (SolKey.calcRAlpha,
          SolVal.numeric (radians (pymod
            (round2 (degrees (atan2 (constantFySum specs) (constantFxSum specs)))) 360))) ∈ sol ∧
        ∀ i m a, specs[i]? = some ⟨.known m, .known a⟩ →
          (SolKey.sym (.F i), SolVal.numeric m) ∈ sol ∧
          (SolKey.sym (.theta i), SolVal.numeric (radians a)) ∈ sol) ∧
    (∀ (vectors : List Vector) (specs : List ForceSpec) (rStr aStr : String)
       (qR qA : ℚ) (gs : GS),
      classifyVectors 0 vectors = .ok specs →
      targetSpecOf rStr = some (.val qR) → targetSpecOf aStr = some (.val qA) →
      unknownSymbols specs = [] →
      ∃ sol, (solve_for_resultant vectors rStr aStr gs).ret.allSols = [sol] ∧
        (SolKey.sym .R,
          SolVal.numeric (round3 (hypot (constantFxSum specs) (constantFySum specs)))) ∈ sol ∧
        (SolKey.sym .alpha,
          SolVal.numeric (radians (pymod
            (round2 (degrees (atan2 (constantFySum specs) (constantFxSum specs)))) 360))) ∈ sol ∧
        ∀ i m a, specs[i]? = some ⟨.known m, .known a⟩ →
          (SolKey.sym (.F i), SolVal.numeric m) ∈ sol ∧
          (SolKey.sym (.theta i), SolVal.numeric (radians a)) ∈ sol) := by
  constructor
  · intro vectors specs gs hclass hzero
    rw [solve_equilibrium_fastpath vectors specs gs hclass hzero]
    refine ⟨_, rfl, List.mem_cons_self _ _, List.mem_cons_of_mem _ (List.mem_cons_self _ _), ?_⟩
    intro i m a h
    have hd := dummyBindings_mem specs i m a h
    exact ⟨List.mem_cons_of_mem _ (List.mem_cons_of_mem _ hd.1),
      List.mem_cons_of_mem _ (List.mem_cons_of_mem _ hd.2)⟩
  · intro vectors specs rStr aStr qR qA gs hclass hr ha hzero
    rw [solve_for_resultant_eq_core vectors specs rStr aStr (.val qR) (.val qA) gs hclass hr ha,
      resultantCore_fastpath vectors.length specs qR qA gs hzero]
    refine ⟨_, rfl, List.mem_cons_self _ _, List.mem_cons_of_mem _ (List.mem_cons_self _ _), ?_⟩
    intro i m a h
    have hd := dummyBindings_mem specs i m a h
    exact ⟨List.mem_cons_of_mem _ (List.mem_cons_of_mem _ hd.1),
      List.mem_cons_of_mem _ (List.mem_cons_of_mem _ hd.2)⟩

/-- Witness for C9 at a single zero force, in both variants. -/
theorem claim9_witness :
    (∃ sol, (solve_for_equilibrium [⟨FieldInput.num 0, FieldInput.num 0, 0⟩]
        (GS.ok [])).ret.allSols = [sol] ∧
      (SolKey.calcRMag,
        SolVal.numeric (round3 (hypot (constantFxSum [⟨.known 0, .known 0⟩])
          (constantFySum [⟨.known 0, .known 0⟩])))) ∈ sol ∧
      (SolKey.calcRAlpha,
        SolVal.numeric (radians (pymod
          (round2 (degrees (atan2 (constantFySum [⟨.known 0, .known 0⟩])
            (constantFxSum [⟨.known 0, .known 0⟩])))) 360))) ∈ sol ∧
      ∀ i m a, [(⟨.known 0, .known 0⟩ : ForceSpec)][i]? = some ⟨.known m, .known a⟩ →
        (SolKey.sym (.F i), SolVal.numeric m) ∈ sol ∧
        (SolKey.sym (.theta i), SolVal.numeric (radians a)) ∈ sol) ∧
    (∃ sol, (solve_for_resultant [⟨FieldInput.num 0, FieldInput.num 0, 0⟩] "0" "0"
        (GS.ok [])).ret.allSols = [sol] ∧
      (SolKey.sym .R,
        SolVal.numeric (round3 (hypot (constantFxSum [⟨.known 0, .known 0⟩])
          (constantFySum [⟨.known 0, .known 0⟩])))) ∈ sol ∧
      (SolKey.sym .alpha,
        SolVal.numeric (radians (pymod
          (round2 (degrees (atan2 (constantFySum [⟨.known 0, .known 0⟩])
            (constantFxSum [⟨.known 0, .known 0⟩])))) 360))) ∈ sol ∧
      ∀ i m a, [(⟨.known 0, .known 0⟩ : ForceSpec)][i]? = some ⟨.known m, .known a⟩ →
        (SolKey.sym (.F i), SolVal.numeric m) ∈ sol ∧
        (SolKey.sym (.theta i), SolVal.numeric (radians a)) ∈ sol) :=
  ⟨claim9_synthetic_solution.1 [⟨FieldInput.num 0, FieldInput.num 0, 0⟩]
      [⟨.known 0, .known 0⟩] (GS.ok []) rfl rfl,
    claim9_synthetic_solution.2 [⟨FieldInput.num 0, FieldInput.num 0, 0⟩]
      [⟨.known 0, .known 0⟩] "0" "0" 0 0 (GS.ok []) rfl targetSpecOf_zero
      targetSpecOf_zero rfl⟩

/-- C4 (amended): in the all-numeric resultant fast path, consistency
with the user-supplied R and α is decided by comparing the rounded
computed magnitude and the rounded normalized computed angle (in
degrees) against the inputs with strict tolerance 1e-6, but the verdict
is only emitted as a status message — the returned dictionary has no
`consistent_with_input` key. -/
theorem claim4_consistency_message_only (vectors : List Vector)
    (specs : List ForceSpec) (rStr aStr : String) (qR qA : ℚ) (gs : GS)
    (hclass : classifyVectors 0 vectors = .ok specs)
    (hr : targetSpecOf rStr = some (.val qR))
    (ha : targetSpecOf aStr = some (.val qA))
    (hzero : unknownSymbols specs = []) :
    ((solve_for_resultant vectors rStr aStr gs).msgs = [Msg.consistentMsg] ↔
      (|round3 (hypot (constantFxSum specs) (constantFySum specs)) - (qR : ℝ)| <
          NUMERIC_ZERO_TOLERANCE ∧
        |pymod (round2 (degrees (atan2 (constantFySum specs) (constantFxSum specs)))) 360 -
            (qA : ℝ)| < NUMERIC_ZERO_TOLERANCE)) ∧
    ((solve_for_resultant vectors rStr aStr gs).msgs = [Msg.inconsistentMsg] ↔
      ¬ (|round3 (hypot (constantFxSum specs) (constantFySum specs)) - (qR : ℝ)| <
          NUMERIC_ZERO_TOLERANCE ∧
        |pymod (round2 (degrees (atan2 (constantFySum specs) (constantFxSum specs)))) 360 -
            (qA : ℝ)| < NUMERIC_ZERO_TOLERANCE)) ∧
    "consistent_with_input" ∉ (solve_for_resultant vectors rStr aStr gs).ret.keys := by
  rw [solve_for_resultant_eq_core vectors specs rStr aStr (.val qR) (.val qA) gs hclass hr ha,
    resultantCore_fastpath vectors.length specs qR qA gs hzero]
  rw [degrees_radians]
  by_cases hc : |round3 (hypot (constantFxSum specs) (constantFySum specs)) - (qR : ℝ)| <
      NUMERIC_ZERO_TOLERANCE ∧
    |pymod (round2 (degrees (atan2 (constantFySum specs) (constantFxSum specs)))) 360 -
        (qA : ℝ)| < NUMERIC_ZERO_TOLERANCE
  · rw [if_pos hc]
    refine ⟨⟨fun _ => hc, fun _ => rfl⟩, ?_,
      show "consistent_with_input" ∉ resFullKeys by decide⟩
    constructor
    · intro hmsg
      exact absurd (List.head_eq_of_cons_eq hmsg) (by intro hh; cases hh)
    · intro hcon
      exact absurd hc hcon
  · rw [if_neg hc]
    refine ⟨?_, ⟨fun _ => hc, fun _ => rfl⟩,
      show "consistent_with_input" ∉ resFullKeys by decide⟩
    constructor
    · intro hmsg
      exact absurd (List.head_eq_of_cons_eq hmsg) (by intro hh; cases hh)
    · intro hcon
      exact absurd hcon hc

/-- Counterexample for C4 as stated: even in the all-numeric resultant
fast path at a concrete input, the returned dictionary does not contain
a `consistent_with_input` field at all. -/
theorem claim4_counterexample :
    "consistent_with_input" ∉
      (solve_for_resultant [⟨FieldInput.num 0, FieldInput.num 0, 0⟩] "0" "0"
        (GS.ok [])).ret.keys := by
  rw [solve_for_resultant_eq_core [⟨FieldInput.num 0, FieldInput.num 0, 0⟩]
      [⟨.known 0, .known 0⟩] "0" "0" (.val 0) (.val 0) (GS.ok []) rfl
      targetSpecOf_zero targetSpecOf_zero,
    resultantCore_fastpath ([⟨FieldInput.num 0, FieldInput.num 0, 0⟩] : List Vector).length
      [⟨.known 0, .known 0⟩] 0 0 (GS.ok []) rfl]
  exact show "consistent_with_input" ∉ resFullKeys by decide

/-- Witness for C4 (amended) at a single zero force with targets R=0,
α=0. -/
theorem claim4_witness :
    ((solve_for_resultant [⟨FieldInput.num 0, FieldInput.num 0, 0⟩] "0" "0"
        (GS.ok [])).msgs = [Msg.consistentMsg] ↔
      (|round3 (hypot (constantFxSum [⟨.known 0, .known 0⟩])
          (constantFySum [⟨.known 0, .known 0⟩])) - ((0 : ℚ) : ℝ)| <
          NUMERIC_ZERO_TOLERANCE ∧
        |pymod (round2 (degrees (atan2 (constantFySum [⟨.known 0, .known 0⟩])
            (constantFxSum [⟨.known 0, .known 0⟩])))) 360 - ((0 : ℚ) : ℝ)| <
          NUMERIC_ZERO_TOLERANCE)) ∧
    ((solve_for_resultant [⟨FieldInput.num 0, FieldInput.num 0, 0⟩] "0" "0"
        (GS.ok [])).msgs = [Msg.inconsistentMsg] ↔
      ¬ (|round3 (hypot (constantFxSum [⟨.known 0, .known 0⟩])
          (constantFySum [⟨.known 0, .known 0⟩])) - ((0 : ℚ) : ℝ)| <
          NUMERIC_ZERO_TOLERANCE ∧
        |pymod (round2 (degrees (atan2 (constantFySum [⟨.known 0, .known 0⟩])
            (constantFxSum [⟨.known 0, .known 0⟩])))) 360 - ((0 : ℚ) : ℝ)| <
          NUMERIC_ZERO_TOLERANCE)) ∧
    "consistent_with_input" ∉
      (solve_for_resultant [⟨FieldInput.num 0, FieldInput.num 0, 0⟩] "0" "0"
        (GS.ok [])).ret.keys :=
  claim4_consistency_message_only [⟨FieldInput.num 0, FieldInput.num 0, 0⟩]
    [⟨.known 0, .known 0⟩] "0" "0" 0 0 (GS.ok []) rfl targetSpecOf_zero
    targetSpecOf_zero rfl

/-- C7: the solver entry points always return a result record.  A
non-numeric, non-unset force field aborts immediately with the bare
error record, independently of anything the general solver would do
(the classification error is decided before any solving); an invalid R
or α string in the resultant variant does the same; and an exception
escaping the general `sp.solve` call is recovered into a normal
full record with an empty solution list and `error = False`. -/
theorem claim7_error_recovery :
    (∀ (vectors : List Vector) (gs : GS) (m : Msg),
      classifyVectors 0 vectors = .error m →
      solve_for_equilibrium vectors gs = ⟨[m], .errorOnly⟩) ∧
    (∀ (vectors : List Vector) (rStr aStr : String) (gs : GS) (m : Msg),
      classifyVectors 0 vectors = .error m →
      solve_for_resultant vectors rStr aStr gs = ⟨[m], .errorOnly⟩) ∧
    (∀ (vectors : List Vector) (specs : List ForceSpec) (rStr aStr : String) (gs : GS),
      classifyVectors 0 vectors = .ok specs →
      rStr ≠ "" → parsePyFloat rStr = Option.none →
      solve_for_resultant vectors rStr aStr gs = ⟨[Msg.invalidR], .errorOnly⟩) ∧
    (∀ (vectors : List Vector) (specs : List ForceSpec) (rStr aStr : String)
       (rS : TargetSpec) (gs : GS),
      classifyVectors 0 vectors = .ok specs →
      targetSpecOf rStr = some rS →
      aStr ≠ "" → parsePyFloat aStr = Option.none →
      solve_for_resultant vectors rStr aStr gs = ⟨[Msg.invalidAlpha], .errorOnly⟩) ∧
    (∀ (vectors : List Vector) (specs : List ForceSpec),
      classifyVectors 0 vectors = .ok specs →
      unknownSymbols specs ≠ [] →
      isSimpleFTheta (unknownSymbols specs) = false →
      ∃ r, (solve_for_equilibrium vectors .raiseExc).ret = .ok r ∧
        r.all_sols = [] ∧ r.error = false) ∧
    (∀ (vectors : List Vector) (specs : List ForceSpec) (rStr aStr : String)
       (rS aS : TargetSpec),
      classifyVectors 0 vectors = .ok specs →
      targetSpecOf rStr = some rS → targetSpecOf aStr = some aS →
      unknownSymbols specs ++ rTail rS ++ aTail aS ≠ [] →
      isSimpleRAlpha (unknownSymbols specs ++ rTail rS ++ aTail aS) = false →
      ∃ r, (solve_for_resultant vectors rStr aStr .raiseExc).ret = .ok r ∧
        r.all_sols = [] ∧ r.error = false) := by
  refine ⟨?_, ?_, ?_, ?_, ?_, ?_⟩
  · intro vectors gs m h
    unfold solve_for_equilibrium
    simp only [h]
  · intro vectors rStr aStr gs m h
    unfold solve_for_resultant
    simp only [h]
  · intro vectors specs rStr aStr gs hclass hne hparse
    unfold solve_for_resultant
    simp only [hclass]
    rw [if_neg hne]
    simp only [hparse]
  · intro vectors specs rStr aStr rS gs hclass hr hne hparse
    unfold solve_for_resultant
    simp only [hclass]
    unfold targetSpecOf at hr
    by_cases h1 : rStr = ""
    · rw [if_pos h1]
      rw [if_neg hne]
      simp only [hparse]
    · rw [if_neg h1] at hr
      rw [if_neg h1]
      cases hqr : parsePyFloat rStr with
      | none => rw [hqr] at hr; simp at hr
      | some qr =>
        simp only [hqr]
        rw [if_neg hne]
        simp only [hparse]
  · intro vectors specs hclass hus hsimple
    unfold solve_for_equilibrium
    simp only [hclass]
    rw [if_neg hus]
    simp only [hsimple, Bool.false_eq_true, if_false]
    exact ⟨_, rfl, rfl, rfl⟩
  · intro vectors specs rStr aStr rS aS hclass hr ha hus hsimple
    rw [solve_for_resultant_eq_core vectors specs rStr aStr rS aS .raiseExc hclass hr ha]
    unfold resultantCore
    rw [if_neg hus]
    simp only [hsimple, Bool.false_eq_true, if_false]
    exact ⟨_, rfl, rfl, rfl⟩

/-- Witness for C7: each recovery branch at a concrete input (invalid
magnitude string "x"; invalid R string "x"; invalid α string "x";
general-solver exception with one unknown magnitude). -/
theorem claim7_witness :
    solve_for_equilibrium [⟨FieldInput.num 0, FieldInput.str "x", 0⟩] (GS.ok []) =
      ⟨[Msg.invalidMagnitude 0], .errorOnly⟩ ∧
    solve_for_resultant [⟨FieldInput.num 0, FieldInput.str "x", 0⟩] "0" "0" (GS.ok []) =
      ⟨[Msg.invalidMagnitude 0], .errorOnly⟩ ∧
    solve_for_resultant [⟨FieldInput.num 0, FieldInput.num 0, 0⟩] "x" "0" (GS.ok []) =
      ⟨[Msg.invalidR], .errorOnly⟩ ∧
    solve_for_resultant [⟨FieldInput.num 0, FieldInput.num 0, 0⟩] "0" "x" (GS.ok []) =
      ⟨[Msg.invalidAlpha], .errorOnly⟩ ∧
    (∃ r, (solve_for_equilibrium [⟨FieldInput.num 0, FieldInput.none, 0⟩]
        .raiseExc).ret = .ok r ∧ r.all_sols = [] ∧ r.error = false) ∧
    (∃ r, (solve_for_resultant [⟨FieldInput.num 0, FieldInput.none, 0⟩] "0" "0"
        .raiseExc).ret = .ok r ∧ r.all_sols = [] ∧ r.error = false) :=
  ⟨claim7_error_recovery.1 _ _ _ rfl,
   claim7_error_recovery.2.1 _ "0" "0" _ _ rfl,
   claim7_error_recovery.2.2.1 _ [⟨.known 0, .known 0⟩] "x" "0" _ rfl (by decide) rfl,
   claim7_error_recovery.2.2.2.1 _ [⟨.known 0, .known 0⟩] "0" "x" (.val 0) _ rfl
     targetSpecOf_zero (by decide) rfl,
   claim7_error_recovery.2.2.2.2.1 _ [⟨.unknown, .known 0⟩] rfl (by decide) rfl,
   claim7_error_recovery.2.2.2.2.2 _ [⟨.unknown, .known 0⟩] "0" "0" (.val 0) (.val 0)
     rfl targetSpecOf_zero targetSpecOf_zero (by decide) rfl⟩

/-- A string that strips to nothing never parses as a float. -/
theorem parsePyFloat_stripped_empty {s : String} (h : stripChars s.toList = []) :
    parsePyFloat s = Option.none := by
  have h' : stripChars s.data = [] := h
  rw [parsePyFloat, splitFloatLit]
  simp [h, h']

/-- With unknowns present, every branch of `solve_for_equilibrium`
returns the full record carrying the accumulated unknown-symbol list. -/
theorem solve_equilibrium_unknowns_any (vectors : List Vector) (specs : List ForceSpec)
    (gs : GS)
    (hclass : classifyVectors 0 vectors = .ok specs)
    (hus : unknownSymbols specs ≠ []) :
    ∃ r, (solve_for_equilibrium vectors gs).ret = .ok r ∧
      r.unknown_symbols = unknownSymbols specs := by
  unfold solve_for_equilibrium
  simp only [hclass]
  rw [if_neg hus]
  cases hs : isSimpleFTheta (unknownSymbols specs) with
  | true =>
    simp only [hs, if_true]
    exact ⟨_, rfl, rfl⟩
  | false =>
    simp only [hs, Bool.false_eq_true, if_false]
    cases gs with
    | raiseExc => exact ⟨_, rfl, rfl⟩
    | ok raw => exact ⟨_, rfl, rfl⟩

/-- With unknowns present, every branch of `resultantCore` returns the
full record carrying the accumulated unknown-symbol list (with the R /
α symbols appended last). -/
theorem resultantCore_unknowns_any (n : Nat) (specs : List ForceSpec)
    (rS aS : TargetSpec) (gs : GS)
    (hus : unknownSymbols specs ++ rTail rS ++ aTail aS ≠ []) :
    ∃ r, (resultantCore n specs rS aS gs).ret = .ok r ∧
      r.unknown_symbols = unknownSymbols specs ++ rTail rS ++ aTail aS := by
  unfold resultantCore
  rw [if_neg hus]
  cases hs : isSimpleRAlpha (unknownSymbols specs ++ rTail rS ++ aTail aS) with
  | true =>
    simp only [hs, if_true]
    exact ⟨_, rfl, rfl⟩
  | false =>
    simp only [hs, Bool.false_eq_true, if_false]
    cases gs with
    | raiseExc => exact ⟨_, rfl, rfl⟩
    | ok raw => exact ⟨_, rfl, rfl⟩

/-- C10: the unset marker is asymmetric between field kinds.  A force
magnitude given as `None` or as any string that strips to empty is
classified as unknown (the solve proceeds with `F1` among the
unknowns), whereas the resultant-variant R and α inputs are classified
unknown only for the exactly empty string: a non-empty whitespace-only
R or α string is routed to the numeric-parse branch, where it fails to
parse and aborts with the bare error record. -/
theorem claim10_unset_asymmetry :
    (∀ (mv : FieldInput),
      (mv = FieldInput.none ∨ ∃ s, mv = FieldInput.str s ∧ stripChars s.toList = []) →
      ∀ gs : GS,
        ∃ r, (solve_for_equilibrium [⟨FieldInput.num 0, mv, 0⟩] gs).ret = .ok r ∧
          r.unknown_symbols = [Sym.F 0]) ∧
    (∀ (vectors : List Vector) (specs : List ForceSpec) (aStr : String)
       (aS : TargetSpec) (gs : GS),
      classifyVectors 0 vectors = .ok specs →
      targetSpecOf aStr = some aS →
      ∃ r, (solve_for_resultant vectors "" aStr gs).ret = .ok r ∧
        r.unknown_symbols = unknownSymbols specs ++ [Sym.R] ++ aTail aS) ∧
    (∀ (s : String), s ≠ "" → stripChars s.toList = [] →
      ∀ (vectors : List Vector) (specs : List ForceSpec) (aStr : String) (gs : GS),
        classifyVectors 0 vectors = .ok specs →
        solve_for_resultant vectors s aStr gs = ⟨[Msg.invalidR], .errorOnly⟩) ∧
    (∀ (s : String), s ≠ "" → stripChars s.toList = [] →
      ∀ (vectors : List Vector) (specs : List ForceSpec) (rStr : String)
         (rS : TargetSpec) (gs : GS),
        classifyVectors 0 vectors = .ok specs →
        targetSpecOf rStr = some rS →
        solve_for_resultant vectors rStr s gs = ⟨[Msg.invalidAlpha], .errorOnly⟩) := by
  refine ⟨?_, ?_, ?_, ?_⟩
  · intro mv hmv gs
    have hfield : classifyField mv = some .unknown := by
      rcases hmv with rfl | ⟨s, rfl, hs⟩
      · rfl
      · rw [classifyField]
        rw [if_pos hs]
    have hclass : classifyVectors 0 [⟨FieldInput.num 0, mv, 0⟩] =
        .ok [⟨.unknown, .known 0⟩] := by
      rw [classifyVectors, hfield]
      rfl
    have h := solve_equilibrium_unknowns_any [⟨FieldInput.num 0, mv, 0⟩]
      [⟨.unknown, .known 0⟩] gs hclass (by decide)
    exact h
  · intro vectors specs aStr aS gs hclass ha
    have hr : targetSpecOf "" = some .unknownT := by rw [targetSpecOf, if_pos rfl]
    rw [solve_for_resultant_eq_core vectors specs "" aStr .unknownT aS gs hclass hr ha]
    have := resultantCore_unknowns_any vectors.length specs .unknownT aS gs
      (by simp [rTail])
    simpa [rTail] using this
  · intro s hne hstrip vectors specs aStr gs hclass
    unfold solve_for_resultant
    simp only [hclass]
    rw [if_neg hne]
    simp only [parsePyFloat_stripped_empty hstrip]
  · intro s hne hstrip vectors specs rStr rS gs hclass hr
    unfold solve_for_resultant
    simp only [hclass]
    unfold targetSpecOf at hr
    by_cases h1 : rStr = ""
    · rw [if_pos h1]
      rw [if_neg hne]
      simp only [parsePyFloat_stripped_empty hstrip]
    · rw [if_neg h1] at hr
      rw [if_neg h1]
      cases hqr : parsePyFloat rStr with
      | none => rw [hqr] at hr; simp at hr
      | some qr =>
        simp only [hqr]
        rw [if_neg hne]
        simp only [parsePyFloat_stripped_empty hstrip]

/-- Witness for C10 with the whitespace-only string " ": unknown as a
force magnitude, validation error as R or α. -/
theorem claim10_witness :
    (∃ r, (solve_for_equilibrium [⟨FieldInput.num 0, FieldInput.str " ", 0⟩]
        (GS.ok [])).ret = .ok r ∧ r.unknown_symbols = [Sym.F 0]) ∧
    (∃ r, (solve_for_resultant [⟨FieldInput.num 0, FieldInput.num 0, 0⟩] "" "0"
        (GS.ok [])).ret = .ok r ∧
      r.unknown_symbols = [] ++ [Sym.R] ++ aTail (.val 0)) ∧
    solve_for_resultant [⟨FieldInput.num 0, FieldInput.num 0, 0⟩] " " "0" (GS.ok []) =
      ⟨[Msg.invalidR], .errorOnly⟩ ∧
    solve_for_resultant [⟨FieldInput.num 0, FieldInput.num 0, 0⟩] "0" " " (GS.ok []) =
      ⟨[Msg.invalidAlpha], .errorOnly⟩ :=
  ⟨claim10_unset_asymmetry.1 (FieldInput.str " ") (Or.inr ⟨" ", rfl, by decide⟩) (GS.ok []),
   claim10_unset_asymmetry.2.1 [⟨FieldInput.num 0, FieldInput.num 0, 0⟩]
     [⟨.known 0, .known 0⟩] "0" (.val 0) (GS.ok []) rfl targetSpecOf_zero,
   claim10_unset_asymmetry.2.2.1 " " (by decide) (by decide)
     [⟨FieldInput.num 0, FieldInput.num 0, 0⟩] [⟨.known 0, .known 0⟩] "0" (GS.ok []) rfl,
   claim10_unset_asymmetry.2.2.2 " " (by decide) (by decide)
     [⟨FieldInput.num 0, FieldInput.num 0, 0⟩] [⟨.known 0, .known 0⟩] "0" (.val 0)
     (GS.ok []) rfl targetSpecOf_zero⟩

/-- Every branch of `resultantCore` returns a dictionary with one of
the two key shapes. -/
theorem resultantCore_keys (n : Nat) (specs : List ForceSpec) (rS aS : TargetSpec)
    (gs : GS) :
    (resultantCore n specs rS aS gs).ret.keys = ["error"] ∨
    (resultantCore n specs rS aS gs).ret.keys = resFullKeys := by
  by_cases hus : unknownSymbols specs ++ rTail rS ++ aTail aS = []
  · unfold resultantCore
    rw [if_pos hus]
    cases rS with
    | unknownT => left; rfl
    | val q =>
      cases aS with
      | unknownT => left; rfl
      | val q2 => right; rfl
  · unfold resultantCore
    rw [if_neg hus]
    cases hs : isSimpleRAlpha (unknownSymbols specs ++ rTail rS ++ aTail aS) with
    | true =>
      simp only [hs, if_true]
      right; rfl
    | false =>
      simp only [hs, Bool.false_eq_true, if_false]
      cases gs with
      | raiseExc => right; rfl
      | ok raw => right; rfl

/-- After successful classification the equilibrium solver always
returns the full record, with the `error` field False. -/
theorem solve_equilibrium_ok_shape (vectors : List Vector) (specs : List ForceSpec)
    (gs : GS) (hclass : classifyVectors 0 vectors = .ok specs) :
    ∃ msgs r, solve_for_equilibrium vectors gs = ⟨msgs, .ok r⟩ ∧ r.error = false := by
  unfold solve_for_equilibrium
  simp only [hclass]
  by_cases h1 : unknownSymbols specs = []
  · rw [if_pos h1]
    exact ⟨_, _, rfl, rfl⟩
  · rw [if_neg h1]
    cases hs : isSimpleFTheta (unknownSymbols specs) with
    | true =>
      simp only [hs, if_true]
      exact ⟨_, _, rfl, rfl⟩
    | false =>
      simp only [hs, Bool.false_eq_true, if_false]
      cases gs with
      | raiseExc => exact ⟨_, _, rfl, rfl⟩
      | ok raw => exact ⟨_, _, rfl, rfl⟩

/-- An R input that is neither blank nor parseable aborts the resultant
solver with the bare error record. -/
theorem solve_for_resultant_invalidR (vectors : List Vector) (specs : List ForceSpec)
    (rStr aStr : String) (gs : GS)
    (hclass : classifyVectors 0 vectors = .ok specs)
    (hr : targetSpecOf rStr = Option.none) :
    solve_for_resultant vectors rStr aStr gs = ⟨[Msg.invalidR], .errorOnly⟩ := by
  unfold solve_for_resultant
  simp only [hclass]
  unfold targetSpecOf at hr
  by_cases h1 : rStr = ""
  · rw [if_pos h1] at hr
    simp at hr
  · rw [if_neg h1] at hr
    rw [if_neg h1]
    cases hq : parsePyFloat rStr with
    | none => simp only [hq]
    | some q => rw [hq] at hr; simp at hr

/-- An α input that is neither blank nor parseable (with a valid R
input) aborts the resultant solver with the bare error record. -/
theorem solve_for_resultant_invalidAlpha (vectors : List Vector)
    (specs : List ForceSpec) (rStr aStr : String) (rS : TargetSpec) (gs : GS)
    (hclass : classifyVectors 0 vectors = .ok specs)
    (hr : targetSpecOf rStr = some rS)
    (ha : targetSpecOf aStr = Option.none) :
    solve_for_resultant vectors rStr aStr gs = ⟨[Msg.invalidAlpha], .errorOnly⟩ := by
  unfold solve_for_resultant
  simp only [hclass]
  unfold targetSpecOf at hr ha
  have hane : ¬ aStr = "" := by
    intro h2
    rw [if_pos h2] at ha
    simp at ha
  rw [if_neg hane] at ha
  have hap : parsePyFloat aStr = Option.none := by
    cases hq : parsePyFloat aStr with
    | none => rfl
    | some q => rw [hq] at ha; simp at ha
  by_cases h1 : rStr = ""
  · rw [if_pos h1]
    rw [if_neg hane]
    simp only [hap]
  · rw [if_neg h1] at hr
    rw [if_neg h1]
    cases hq : parsePyFloat rStr with
    | none => rw [hq] at hr; simp at hr
    | some q =>
      simp only [hq]
      rw [if_neg hane]
      simp only [hap]

/-- C5 (amended): the equilibrium solver's dictionary always has one of
two fixed key sets — the full key set (which includes `all_sols`, so an
empty solution list is a present empty list, and `error`, always False
there) whenever field classification succeeds, or the bare `{"error":
True}` on a validation failure; the same dichotomy holds for the
resultant solver.  The advisory under/overdetermination classification
is not a field of either dictionary: it is emitted as a warning
message. -/
theorem claim5_record_fields :
    (∀ (vectors : List Vector) (gs : GS),
      (solve_for_equilibrium vectors gs).ret.keys = ["error"] ∨
      (solve_for_equilibrium vectors gs).ret.keys = eqFullKeys) ∧
    (∀ (vectors : List Vector) (rStr aStr : String) (gs : GS),
      (solve_for_resultant vectors rStr aStr gs).ret.keys = ["error"] ∨
      (solve_for_resultant vectors rStr aStr gs).ret.keys = resFullKeys) ∧
    (∀ (vectors : List Vector) (specs : List ForceSpec) (gs : GS),
      classifyVectors 0 vectors = .ok specs →
      (solve_for_equilibrium vectors gs).ret.keys = eqFullKeys ∧
      ∃ r, (solve_for_equilibrium vectors gs).ret = .ok r ∧ r.error = false) ∧
    "all_sols" ∈ eqFullKeys ∧ "all_sols" ∈ resFullKeys ∧
    "underdetermined" ∉ eqFullKeys ∧ "overdetermined" ∉ eqFullKeys ∧
    "underdetermined" ∉ resFullKeys ∧ "overdetermined" ∉ resFullKeys ∧
    (∀ (vectors : List Vector) (specs : List ForceSpec) (gs : GS),
      classifyVectors 0 vectors = .ok specs →
      unknownSymbols specs ≠ [] →
      2 < (unknownSymbols specs).length →
      Msg.underdeterminedWarn (unknownSymbols specs).length ∈
        (solve_for_equilibrium vectors gs).msgs) := by
  refine ⟨?_, ?_, ?_, by decide, by decide, by decide, by decide, by decide, by decide, ?_⟩
  · intro vectors gs
    cases hc : classifyVectors 0 vectors with
    | error m =>
      left
      unfold solve_for_equilibrium
      simp only [hc]
      rfl
    | ok specs =>
      right
      obtain ⟨msgs, r, heq, -⟩ := solve_equilibrium_ok_shape vectors specs gs hc
      rw [heq]
      rfl
  · intro vectors rStr aStr gs
    cases hc : classifyVectors 0 vectors with
    | error m =>
      left
      unfold solve_for_resultant
      simp only [hc]
      rfl
    | ok specs =>
      cases hr : targetSpecOf rStr with
      | none =>
        left
        rw [solve_for_resultant_invalidR vectors specs rStr aStr gs hc hr]
        rfl
      | some rS =>
        cases ha : targetSpecOf aStr with
        | none =>
          left
          rw [solve_for_resultant_invalidAlpha vectors specs rStr aStr rS gs hc hr ha]
          rfl
        | some aS =>
          rw [solve_for_resultant_eq_core vectors specs rStr aStr rS aS gs hc hr ha]
          exact resultantCore_keys _ _ _ _ _
  · intro vectors specs gs hclass
    obtain ⟨msgs, r, heq, herr⟩ := solve_equilibrium_ok_shape vectors specs gs hclass
    rw [heq]
    exact ⟨rfl, r, rfl, herr⟩
  · intro vectors specs gs hclass hus h2
    unfold solve_for_equilibrium
    simp only [hclass]
    rw [if_neg hus]
    have hadv : Msg.underdeterminedWarn (unknownSymbols specs).length ∈
        advisoryMsgs (unknownSymbols specs).length := by
      rw [advisoryMsgs, if_pos h2]
      exact List.mem_singleton_self _
    cases hs : isSimpleFTheta (unknownSymbols specs) with
    | true =>
      simp only [hs, if_true]
      exact hadv
    | false =>
      simp only [hs, Bool.false_eq_true, if_false]
      cases gs with
      | raiseExc => exact List.mem_append_left _ hadv
      | ok raw => exact List.mem_append_left _ hadv

/-- Counterexample for C5 as stated: on a validation failure the
returned dictionary holds only the `error` key — the solution list and
every other documented field are absent — and even the full dictionary
has no `underdetermined` / `overdetermined` boolean fields. -/
theorem claim5_counterexample :
    (solve_for_equilibrium [⟨FieldInput.num 0, FieldInput.str "x", 0⟩]
      (GS.ok [])).ret.keys = ["error"] ∧
    "all_sols" ∉ (solve_for_equilibrium [⟨FieldInput.num 0, FieldInput.str "x", 0⟩]
      (GS.ok [])).ret.keys ∧
    "underdetermined" ∉ eqFullKeys ∧ "overdetermined" ∉ eqFullKeys := by
  have h : solve_for_equilibrium [⟨FieldInput.num 0, FieldInput.str "x", 0⟩]
      (GS.ok []) = ⟨[Msg.invalidMagnitude 0], .errorOnly⟩ := by
    unfold solve_for_equilibrium
    rfl
  rw [h]
  exact ⟨rfl, by decide, by decide, by decide⟩

/-- Witness for C5 (amended): a valid all-known input yields the full
key set with `error = False`, and a three-unknown input surfaces the
underdetermined advisory as a warning message. -/
theorem claim5_witness :
    ((solve_for_equilibrium [⟨FieldInput.num 0, FieldInput.num 0, 0⟩]
        (GS.ok [])).ret.keys = eqFullKeys ∧
      ∃ r, (solve_for_equilibrium [⟨FieldInput.num 0, FieldInput.num 0, 0⟩]
        (GS.ok [])).ret = .ok r ∧ r.error = false) ∧
    Msg.underdeterminedWarn 3 ∈
      (solve_for_equilibrium
        [⟨FieldInput.none, FieldInput.none, 0⟩, ⟨FieldInput.num 0, FieldInput.none, 0⟩]
        (GS.ok [])).msgs :=
  ⟨claim5_record_fields.2.2.1 [⟨FieldInput.num 0, FieldInput.num 0, 0⟩]
      [⟨.known 0, .known 0⟩] (GS.ok []) rfl,
   claim5_record_fields.2.2.2.2.2.2.2.2.2
     [⟨FieldInput.none, FieldInput.none, 0⟩, ⟨FieldInput.num 0, FieldInput.none, 0⟩]
     [⟨.unknown, .unknown⟩, ⟨.unknown, .known 0⟩] (GS.ok []) rfl (by decide) (by decide)⟩

/-- Position rank of a symbol in the order the solvers build
`unknown_symbols`: per force, magnitude before angle, forces by index,
R and α after all forces (`n` = force count). -/
def symRank (n : Nat) : Sym → Nat
  | .F i => 2 * i
  | .theta i => 2 * i + 1
  | .R => 2 * n
  | .alpha => 2 * n + 1

/-- Characterization of membership in the accumulated unknown list. -/
theorem mem_unknownSymbolsAux {s : Sym} {k : Nat} {l : List ForceSpec} :
    s ∈ unknownSymbolsAux k l ↔
      ∃ j f, l[j]? = some f ∧
        ((s = Sym.F (k + j) ∧ f.mag.isUnknown = true) ∨
         (s = Sym.theta (k + j) ∧ f.ang.isUnknown = true)) := by
  induction l generalizing k with
  | nil => simp [unknownSymbolsAux]
  | cons f t ih =>
    rw [unknownSymbolsAux, List.mem_append]
    constructor
    · rintro (hseg | htail)
      · refine ⟨0, f, List.getElem?_cons_zero, ?_⟩
        rw [unknownSymsOfForce, List.mem_append] at hseg
        rcases hseg with h | h
        · by_cases hb : f.mag.isUnknown
          · rw [if_pos hb, List.mem_singleton] at h
            exact Or.inl ⟨by simpa using h, hb⟩
          · rw [if_neg hb] at h
            cases h
        · by_cases hb : f.ang.isUnknown
          · rw [if_pos hb, List.mem_singleton] at h
            exact Or.inr ⟨by simpa using h, hb⟩
          · rw [if_neg hb] at h
            cases h
      · obtain ⟨j, g, hj, hg⟩ := ih.mp htail
        refine ⟨j + 1, g, by rw [List.getElem?_cons_succ]; exact hj, ?_⟩
        have harith : k + 1 + j = k + (j + 1) := by omega
        rcases hg with ⟨hs, hb⟩ | ⟨hs, hb⟩
        · exact Or.inl ⟨by rw [hs, harith], hb⟩
        · exact Or.inr ⟨by rw [hs, harith], hb⟩
    · rintro ⟨j, g, hj, hg⟩
      cases j with
      | zero =>
        rw [List.getElem?_cons_zero] at hj
        injection hj with hj
        subst hj
        left
        rw [unknownSymsOfForce, List.mem_append]
        rcases hg with ⟨hs, hb⟩ | ⟨hs, hb⟩
        · left
          rw [if_pos hb, List.mem_singleton, hs]
          simp
        · right
          rw [if_pos hb, List.mem_singleton, hs]
          simp
      | succ j =>
        right
        apply ih.mpr
        refine ⟨j, g, by rw [List.getElem?_cons_succ] at hj; exact hj, ?_⟩
        have harith : k + (j + 1) = k + 1 + j := by omega
        rcases hg with ⟨hs, hb⟩ | ⟨hs, hb⟩
        · exact Or.inl ⟨by rw [hs, harith], hb⟩
        · exact Or.inr ⟨by rw [hs, harith], hb⟩

/-- Rank bounds for members of the accumulated unknown list. -/
theorem unknownSymbolsAux_rank_mem (n k : Nat) (l : List ForceSpec) {s : Sym}
    (h : s ∈ unknownSymbolsAux k l) :
    2 * k ≤ symRank n s ∧ symRank n s < 2 * (k + l.length) := by
  obtain ⟨j, f, hj, hg⟩ := mem_unknownSymbolsAux.mp h
  have hjlen : j < l.length := by
    by_contra hge
    rw [List.getElem?_eq_none (le_of_not_lt hge)] at hj
    cases hj
  rcases hg with ⟨rfl, -⟩ | ⟨rfl, -⟩ <;> (simp only [symRank]; omega)

/-- The unknown-symbol list the loop builds is strictly ordered by
rank: forces in index order, magnitude before angle. -/
theorem unknownSymbolsAux_pairwise (n k : Nat) (l : List ForceSpec) :
    (unknownSymbolsAux k l).Pairwise (fun a b => symRank n a < symRank n b) := by
  induction l generalizing k with
  | nil => exact List.Pairwise.nil
  | cons f t ih =>
    rw [unknownSymbolsAux, List.pairwise_append]
    refine ⟨?_, ih (k + 1), ?_⟩
    · rw [unknownSymsOfForce]
      by_cases h1 : f.mag.isUnknown <;> by_cases h2 : f.ang.isUnknown <;>
        simp [h1, h2, symRank]
    · intro a ha b hb
      have hb' := (unknownSymbolsAux_rank_mem n (k + 1) t hb).1
      have ha' : symRank n a < 2 * (k + 1) := by
        rw [unknownSymsOfForce, List.mem_append] at ha
        rcases ha with h | h
        · by_cases h1 : f.mag.isUnknown
          · rw [if_pos h1, List.mem_singleton] at h
            subst h
            simp only [symRank]
            omega
          · rw [if_neg h1] at h
            cases h
        · by_cases h2 : f.ang.isUnknown
          · rw [if_pos h2, List.mem_singleton] at h
            subst h
            simp only [symRank]
            omega
          · rw [if_neg h2] at h
            cases h
      omega

theorem R_not_mem_unknownSymbols (specs : List ForceSpec) :
    Sym.R ∉ unknownSymbols specs := by
  intro h
  obtain ⟨j, f, -, hg⟩ := mem_unknownSymbolsAux.mp h
  rcases hg with ⟨hs, -⟩ | ⟨hs, -⟩ <;> cases hs

theorem alpha_not_mem_unknownSymbols (specs : List ForceSpec) :
    Sym.alpha ∉ unknownSymbols specs := by
  intro h
  obtain ⟨j, f, -, hg⟩ := mem_unknownSymbolsAux.mp h
  rcases hg with ⟨hs, -⟩ | ⟨hs, -⟩ <;> cases hs

/-- Every branch of `resultantCore` (including the all-known fast path)
returns the record carrying the accumulated unknown-symbol list. -/
theorem resultantCore_unknown_symbols_all (n : Nat) (specs : List ForceSpec)
    (rS aS : TargetSpec) (gs : GS) :
    ∃ r, (resultantCore n specs rS aS gs).ret = .ok r ∧
      r.unknown_symbols = unknownSymbols specs ++ rTail rS ++ aTail aS := by
  by_cases hus : unknownSymbols specs ++ rTail rS ++ aTail aS = []
  · have hparts := hus
    rw [List.append_eq_nil, List.append_eq_nil] at hparts
    obtain ⟨⟨h1, h2⟩, h3⟩ := hparts
    cases rS with
    | unknownT => exact absurd h2 (by simp [rTail])
    | val q =>
      cases aS with
      | unknownT => exact absurd h3 (by simp [aTail])
      | val q2 =>
        rw [resultantCore_fastpath n specs q q2 gs h1]
        exact ⟨_, rfl, by rw [h1]; rfl⟩
  · exact resultantCore_unknowns_any n specs rS aS gs hus

/-- The R / α target is classified unknown exactly for the empty
string. -/
theorem targetSpecOf_unknown_iff {s : String} {tS : TargetSpec}
    (h : targetSpecOf s = some tS) : tS = .unknownT ↔ s = "" := by
  unfold targetSpecOf at h
  by_cases h1 : s = ""
  · rw [if_pos h1] at h
    injection h with h
    subst h
    simp [h1]
  · rw [if_neg h1] at h
    cases hq : parsePyFloat s with
    | none => rw [hq] at h; simp at h
    | some q =>
      rw [hq, Option.map_some'] at h
      injection h with h
      subst h
      simp [h1]

/-- C6 (amended): the `unknown_symbols` list returned by the resultant
solver is the per-force unknowns in force-index order (each force's
unknown magnitude immediately preceding its unknown angle), with `R`
and `alpha_rad` appended last exactly when their input strings are
blank; the symbol names follow the patterns `F{i+1}` for magnitudes and
`theta_F{i+1}_rad` for angles (the name of the SymPy angle symbol
carries the `_rad` suffix; it is stripped only in the LaTeX display). -/
theorem claim6_unknown_symbol_order (vectors : List Vector) (specs : List ForceSpec)
    (rStr aStr : String) (rS aS : TargetSpec) (gs : GS)
    (hclass : classifyVectors 0 vectors = .ok specs)
    (hr : targetSpecOf rStr = some rS) (ha : targetSpecOf aStr = some aS) :
    ∃ r, (solve_for_resultant vectors rStr aStr gs).ret = .ok r ∧
      r.unknown_symbols = unknownSymbols specs ++ rTail rS ++ aTail aS ∧
      (unknownSymbols specs).Pairwise
        (fun a b => symRank vectors.length a < symRank vectors.length b) ∧
      (∀ i, Sym.F i ∈ r.unknown_symbols ↔
        ∃ f, specs[i]? = some f ∧ f.mag.isUnknown = true) ∧
      (∀ i, Sym.theta i ∈ r.unknown_symbols ↔
        ∃ f, specs[i]? = some f ∧ f.ang.isUnknown = true) ∧
      (Sym.R ∈ r.unknown_symbols ↔ rStr = "") ∧
      (Sym.alpha ∈ r.unknown_symbols ↔ aStr = "") ∧
      (∀ s ∈ unknownSymbols specs, ∃ i,
        (s = Sym.F i ∧ symName s = "F" ++ toString (i + 1)) ∨
        (s = Sym.theta i ∧ symName s = "theta_F" ++ toString (i + 1) ++ "_rad")) := by
  rw [solve_for_resultant_eq_core vectors specs rStr aStr rS aS gs hclass hr ha]
  obtain ⟨r, hret, hsyms⟩ := resultantCore_unknown_symbols_all vectors.length specs rS aS gs
  refine ⟨r, hret, hsyms, unknownSymbolsAux_pairwise _ 0 specs, ?_, ?_, ?_, ?_, ?_⟩
  · intro i
    rw [hsyms]
    simp only [List.mem_append]
    constructor
    · rintro ((h | h) | h)
      · obtain ⟨j, f, hj, hg⟩ := mem_unknownSymbolsAux.mp h
        rcases hg with ⟨hs, hb⟩ | ⟨hs, hb⟩
        · injection hs with hs
          subst hs
          exact ⟨f, by simpa using hj, hb⟩
        · cases hs
      · cases rS <;> simp [rTail] at h
      · cases aS <;> simp [aTail] at h
    · rintro ⟨f, hj, hb⟩
      left; left
      exact mem_unknownSymbolsAux.mpr ⟨i, f, hj, Or.inl ⟨by first | rfl | simp, hb⟩⟩
  · intro i
    rw [hsyms]
    simp only [List.mem_append]
    constructor
    · rintro ((h | h) | h)
      · obtain ⟨j, f, hj, hg⟩ := mem_unknownSymbolsAux.mp h
        rcases hg with ⟨hs, hb⟩ | ⟨hs, hb⟩
        · cases hs
        · injection hs with hs
          subst hs
          exact ⟨f, by simpa using hj, hb⟩
      · cases rS <;> simp [rTail] at h
      · cases aS <;> simp [aTail] at h
    · rintro ⟨f, hj, hb⟩
      left; left
      exact mem_unknownSymbolsAux.mpr ⟨i, f, hj, Or.inr ⟨by first | rfl | simp, hb⟩⟩
  · rw [hsyms]
    simp only [List.mem_append]
    rw [← targetSpecOf_unknown_iff hr]
    constructor
    · rintro ((h | h) | h)
      · exact absurd h (R_not_mem_unknownSymbols specs)
      · cases rS with
        | unknownT => rfl
        | val q => simp [rTail] at h
      · cases aS <;> simp [aTail] at h
    · intro h
      subst h
      left; right
      simp [rTail]
  · rw [hsyms]
    simp only [List.mem_append]
    rw [← targetSpecOf_unknown_iff ha]
    constructor
    · rintro ((h | h) | h)
      · exact absurd h (alpha_not_mem_unknownSymbols specs)
      · cases rS <;> simp [rTail] at h
      · cases aS with
        | unknownT => rfl
        | val q => simp [aTail] at h
    · intro h
      subst h
      right
      simp [aTail]
  · intro s hs
    obtain ⟨j, f, -, hg⟩ := mem_unknownSymbolsAux.mp hs
    rcases hg with ⟨hs', -⟩ | ⟨hs', -⟩
    · exact ⟨j, Or.inl ⟨by simpa using hs', by rw [hs']; simp [symName]⟩⟩
    · exact ⟨j, Or.inr ⟨by simpa using hs', by rw [hs']; simp [symName]⟩⟩

/-- Counterexample for C6 as stated: for a single force with unknown
angle, the returned unknown-symbol list is `[theta_F1_rad]`, whose name
does not follow the claimed `theta_F{i+1}` pattern (it carries the
`_rad` suffix). -/
theorem claim6_counterexample :
    (solve_for_equilibrium [⟨FieldInput.none, FieldInput.num 5, 0⟩]
      (GS.ok [])).ret.unknownSyms = [Sym.theta 0] ∧
    symName (Sym.theta 0) = "theta_F1_rad" ∧
    symName (Sym.theta 0) ≠ "theta_F1" := by
  obtain ⟨r, hret, hsyms⟩ := solve_equilibrium_unknowns_any
    [⟨FieldInput.none, FieldInput.num 5, 0⟩] [⟨.known 5, .unknown⟩] (GS.ok [])
    rfl (by decide)
  refine ⟨?_, by decide, by decide⟩
  rw [hret]
  show r.unknown_symbols = [Sym.theta 0]
  rw [hsyms]
  decide

/-- Witness for C6 (amended) at one force with unknown angle, blank R
and known α. -/
theorem claim6_witness :
    ∃ r, (solve_for_resultant [⟨FieldInput.none, FieldInput.num 5, 0⟩] "" "0"
        (GS.ok [])).ret = .ok r ∧
      r.unknown_symbols =
        unknownSymbols [⟨.known 5, .unknown⟩] ++ rTail .unknownT ++ aTail (.val 0) ∧
      (unknownSymbols [⟨.known 5, .unknown⟩]).Pairwise
        (fun a b =>
          symRank ([⟨FieldInput.none, FieldInput.num 5, 0⟩] : List Vector).length a <
          symRank ([⟨FieldInput.none, FieldInput.num 5, 0⟩] : List Vector).length b) ∧
      (∀ i, Sym.F i ∈ r.unknown_symbols ↔
        ∃ f, ([⟨.known 5, .unknown⟩] : List ForceSpec)[i]? = some f ∧
          f.mag.isUnknown = true) ∧
      (∀ i, Sym.theta i ∈ r.unknown_symbols ↔
        ∃ f, ([⟨.known 5, .unknown⟩] : List ForceSpec)[i]? = some f ∧
          f.ang.isUnknown = true) ∧
      (Sym.R ∈ r.unknown_symbols ↔ ("" : String) = "") ∧
      (Sym.alpha ∈ r.unknown_symbols ↔ ("0" : String) = "") ∧
      (∀ s ∈ unknownSymbols [⟨.known 5, .unknown⟩], ∃ i,
        (s = Sym.F i ∧ symName s = "F" ++ toString (i + 1)) ∨
        (s = Sym.theta i ∧ symName s = "theta_F" ++ toString (i + 1) ++ "_rad")) :=
  claim6_unknown_symbol_order [⟨FieldInput.none, FieldInput.num 5, 0⟩]
    [⟨.known 5, .unknown⟩] "" "0" .unknownT (.val 0) (GS.ok []) rfl
    (by rw [targetSpecOf, if_pos rfl]) targetSpecOf_zero

end Statics
